import Mathlib

set_option maxRecDepth 4000

/-!
Shallow embedding of `examples/chat-app-python/app.py` (the PAMPA chat
`ConnectionManager` and its websocket endpoint).

Modelling conventions:
* Python `dict`s are association lists (`List (String × α)`) preserving
  insertion order; assignment to an existing key updates it in place,
  assignment to a fresh key appends.
* Python `set`s of connection ids are duplicate-free `List String`
  (`set.add` appends when absent, `set.discard`/`set.remove` filter).
* Nondeterministic inputs of the source (`uuid.uuid4()`, `datetime.now()`,
  the random avatar color) are threaded as explicit string parameters.
* An `await self._broadcast_to_room r p` call site is recorded as the
  emission `Out.broadcast r p` (guarded, as the source is, by
  `room_id in self.room_users`); the delivery pass of
  `_broadcast_to_room` itself, including its handling of send failures
  and inactive members, is modelled separately by `broadcast_to_room_run`
  with the set of failing transports as an explicit parameter.
-/

namespace PampaChat

structure User where
  id : String
  username : String
  avatar : String
  joined_at : String
  current_room : String
deriving DecidableEq

structure Room where
  id : String
  name : String
  description : String
  is_public : Bool
  max_users : Nat
  created_by : String
deriving DecidableEq

structure Message where
  id : String
  type : String
  user : User
  content : String
  room_id : String
  timestamp : String
deriving DecidableEq

/-- Wire payloads produced by the manager (the JSON objects passed to
`send_text` / `_broadcast_to_room`). -/
inductive Payload where
  | userLeft (user : User) (room_id : String) (timestamp : String)
  | userJoined (user : User) (room_id : String) (timestamp : String)
  | userRenamed (old_name new_name : String) (user : User) (room_id : String) (timestamp : String)
  | newMessage (message : Message)
  | messageHistoryMsg (messages : List Message) (room_id : String)
  | systemMessage (content : String) (timestamp : String)
  | errorMsg (message : String)
  | registrationResult (success : Bool) (user : Option User) (error : Option String)
  | joinResult (success : Bool) (room : Option Room) (error : Option String)
deriving DecidableEq

/-- An observable output: either the initiation of a room broadcast, or a
direct `send_text` to one connection. -/
inductive Out where
  | broadcast (room_id : String) (p : Payload)
  | send (connection_id : String) (p : Payload)
deriving DecidableEq

/-- The result dictionaries returned by the manager's operations; a key
absent from the Python dict is `none`. -/
structure OpResult where
  success : Bool
  error : Option String
  user : Option User
  room : Option Room
  message : Option Message
deriving DecidableEq

/-- A failure dict that carries an `error` key, such as
`{'success': False, 'error': e}`. -/
def failRes (e : String) : OpResult := ⟨false, some e, none, none, none⟩

/-- The bare failure dict `{'success': False}` (no `error` key). -/
def failBare : OpResult := ⟨false, none, none, none, none⟩

/-- The bare success dict `{'success': True}`. -/
def okRes : OpResult := ⟨true, none, none, none, none⟩

structure ChatState where
  activeConnections : List String
  users : List (String × User)
  rooms : List (String × Room)
  roomUsers : List (String × List String)
  messageHistory : List (String × List Message)
deriving DecidableEq

/-- Python dict assignment `d[k] = v`: update in place when the key exists,
append otherwise. -/
def setA {α : Type} (k : String) (v : α) (l : List (String × α)) : List (String × α) :=
  if (l.lookup k).isSome then l.map (fun p => if p.1 = k then (k, v) else p)
  else l ++ [(k, v)]

/-- Python in-place mutation of the value stored under an existing key,
such as `d[k].add(x)` or `d[k].discard(x)`. Missing keys are untouched
(the Python source never reaches that case: it would raise `KeyError`). -/
def updA {α : Type} (k : String) (f : α → α) (l : List (String × α)) : List (String × α) :=
  l.map (fun p => if p.1 = k then (p.1, f p.2) else p)

/-- Python `set.add`. -/
def addMember (c : String) (l : List String) : List String :=
  if l.contains c then l else l ++ [c]

/-- Python slice `l[-n:]` (for `n > 0`): the most recent `n` entries. -/
def lastN {α : Type} (n : Nat) (l : List α) : List α := l.drop (l.length - n)

/-- Lines 224-229 of `send_message`: append the message to the room history,
then keep only the last 100 entries (`history = history[-100:]`). -/
def pushTrim (h : List Message) (m : Message) : List Message :=
  let h2 := h ++ [m]
  if 100 < h2.length then lastN 100 h2 else h2

/-- Python `str.lower()` (ASCII case folding, applied characterwise). -/
def lowerStr (s : String) : String := ⟨s.data.map Char.toLower⟩

/-- Python `str.strip()`: remove leading and trailing whitespace. -/
def pyStrip (s : String) : String :=
  ⟨((s.data.dropWhile Char.isWhitespace).reverse.dropWhile Char.isWhitespace).reverse⟩

/-- Python `content.startswith('/')`. -/
def isCommand (s : String) : Bool := s.data.head? == some '/'

/-- Python `command.split(' ', 1)` on the underlying characters: everything
before the first space, and everything after it. -/
def splitCmd : List Char → List Char × List Char
  | [] => ([], [])
  | ch :: rest =>
    if ch = ' ' then ([], rest)
    else
      let r := splitCmd rest
      (ch :: r.1, r.2)

/-- Lines 242-244 of `_handle_command`: `parts = command.split(' ', 1)`,
`args = parts[1] if len(parts) > 1 else ''` (both cases yield `""` when
there is no text after the first space). -/
def splitOnce (s : String) : String × String :=
  let r := splitCmd s.data
  (⟨r.1⟩, ⟨r.2⟩)

/-- The seed rooms of `_initialize_default_rooms`. -/
def defaultRooms : List Room :=
  [⟨"general", "General", "Sala principal para conversaciones generales", true, 50, "system"⟩,
   ⟨"tecnologia", "Tecnología", "Discusiones sobre tecnología y programación", true, 30, "system"⟩,
   ⟨"python", "Python", "Todo sobre Python y sus frameworks", true, 25, "system"⟩]

/-- The `ConnectionManager.__init__` state: empty maps plus the seeded
default rooms, each with an empty member set and empty history. -/
def initialState : ChatState :=
  { activeConnections := []
    users := []
    rooms := defaultRooms.map (fun r => (r.id, r))
    roomUsers := defaultRooms.map (fun r => (r.id, []))
    messageHistory := defaultRooms.map (fun r => (r.id, [])) }

/-- A placeholder used to totalize Python expressions that would raise
`KeyError`; it is never reached from the call sites modelled here. -/
def defaultRoom : Room := ⟨"", "", "", false, 0, ""⟩

/-- `ConnectionManager.connect`: record the accepted connection. -/
def connect (s : ChatState) (connection_id : String) : ChatState :=
  { s with activeConnections :=
      if s.activeConnections.contains connection_id then s.activeConnections
      else s.activeConnections ++ [connection_id] }

/-- `ConnectionManager.disconnect` (lines 92-117): drop the connection,
remove it from every room set (collecting the rooms it occupied), and if it
had a user record, emit a `user_left` broadcast to each such room and delete
the record. -/
def disconnect (s : ChatState) (connection_id ts : String) : ChatState × List Out :=
  let active := s.activeConnections.filter (fun x => x != connection_id)
  let user_rooms := (s.roomUsers.filter (fun q => q.2.contains connection_id)).map Prod.fst
  let ru := s.roomUsers.map (fun q => (q.1, q.2.filter (fun x => x != connection_id)))
  match s.users.lookup connection_id with
  | some user =>
    ({ activeConnections := active
       users := s.users.filter (fun p => p.1 != connection_id)
       rooms := s.rooms
       roomUsers := ru
       messageHistory := s.messageHistory },
     user_rooms.map (fun r => Out.broadcast r (.userLeft user r ts)))
  | none =>
    ({ activeConnections := active
       users := s.users
       rooms := s.rooms
       roomUsers := ru
       messageHistory := s.messageHistory }, [])

/-- The call `await self._broadcast_to_room room_id payload`, viewed as an
emission: `_broadcast_to_room` returns silently when `room_id` has no entry
in `room_users` (line 363), otherwise the broadcast is initiated. -/
def broadcast_to_room (roomUsers : List (String × List String)) (room_id : String)
    (p : Payload) : List Out :=
  if (roomUsers.lookup room_id).isSome then [Out.broadcast room_id p] else []

/-- `ConnectionManager._send_system_message` (lines 352-359). -/
def send_system_message (s : ChatState) (connection_id content ts : String) : List Out :=
  if s.activeConnections.contains connection_id then
    [Out.send connection_id (.systemMessage content ts)]
  else []

/-- `ConnectionManager.join_room` (lines 151-197). -/
def join_room (s : ChatState) (connection_id room_id ts : String) :
    ChatState × List Out × OpResult :=
  match s.users.lookup connection_id with
  | none => (s, [], failRes "Usuario no registrado")
  | some user =>
    match s.rooms.lookup room_id with
    | none => (s, [], failRes "Sala no encontrada")
    | some room =>
      if room.max_users ≤ ((s.roomUsers.lookup room_id).getD []).length then
        (s, [], failRes "Sala llena")
      else
        let old_room := user.current_room
        let doOld : Bool := old_room != "" && (s.roomUsers.lookup old_room).isSome
        let ru1 :=
          if doOld then updA old_room (fun l => l.filter (fun x => x != connection_id)) s.roomUsers
          else s.roomUsers
        let outs1 :=
          if doOld then [Out.broadcast old_room (.userLeft user old_room ts)] else []
        let ru2 := updA room_id (addMember connection_id) ru1
        let user2 := { user with current_room := room_id }
        let s2 := { s with roomUsers := ru2, users := setA connection_id user2 s.users }
        let outs2 := outs1 ++ broadcast_to_room ru2 room_id (.userJoined user2 room_id ts)
        let histOut :=
          if s.activeConnections.contains connection_id then
            [Out.send connection_id
              (.messageHistoryMsg (lastN 50 ((s.messageHistory.lookup room_id).getD [])) room_id)]
          else []
        (s2, outs2 ++ histOut, ⟨true, none, none, some room, none⟩)

/-- `ConnectionManager.register_user` (lines 119-142). On success the user
record is created with `current_room = 'general'` already set, and the
result of the automatic `join_room` is ignored. -/
def register_user (s : ChatState) (connection_id username avatar ts : String) :
    ChatState × List Out × OpResult :=
  if (s.users.lookup connection_id).isSome then
    (s, [], failRes "Usuario ya registrado")
  else if s.users.any (fun p => lowerStr p.2.username == lowerStr username) then
    (s, [], failRes "Nombre de usuario ya en uso")
  else
    let user : User := ⟨connection_id, username, avatar, ts, "general"⟩
    let s1 := { s with users := setA connection_id user s.users }
    let r := join_room s1 connection_id "general" ts
    (r.1, r.2.1, ⟨true, none, some user, none, none⟩)

/-- The help text sent by `/help` (lines 247-255, after `.strip()`). -/
def helpText : String :=
  "Comandos disponibles:\n/help - Muestra esta ayuda\n/rooms - Lista todas las salas\n/users - Lista usuarios en la sala actual\n/join <sala> - Une a una sala específica\n/nick <nuevo_nombre> - Cambia tu nombre de usuario\n/stats - Muestra estadísticas de la sala actual"

/-- Lines 311-314 of `_handle_command`: some *other* active user already
holds the requested name, case-insensitively. -/
def nickTaken (s : ChatState) (connection_id args : String) : Bool :=
  s.users.any (fun p => p.1 != connection_id && lowerStr p.2.username == lowerStr args)

/-- The `/rooms` listing (lines 260-267). -/
def roomsListing (s : ChatState) : String :=
  "Salas disponibles:\n" ++
    String.intercalate "\n"
      (s.rooms.map (fun p =>
        "• " ++ p.2.name ++ " (" ++ toString ((s.roomUsers.lookup p.1).getD []).length ++
          "/" ++ toString p.2.max_users ++ ") - " ++ p.2.description))

/-- The `/users` listing (lines 270-277). -/
def usersListing (s : ChatState) (room_id : String) : String :=
  "Usuarios en " ++ ((s.rooms.lookup room_id).getD defaultRoom).name ++ ": " ++
    String.intercalate ", "
      (((s.roomUsers.lookup room_id).getD []).filterMap
        (fun uid => (s.users.lookup uid).map (fun u => u.username)))

/-- The `/stats` text (lines 332-343, after `.strip()`). -/
def statsText (s : ChatState) (room_id : String) : String :=
  let room := (s.rooms.lookup room_id).getD defaultRoom
  "Estadísticas de " ++ room.name ++ ":\n• Usuarios conectados: " ++
    toString ((s.roomUsers.lookup room_id).getD []).length ++ "/" ++ toString room.max_users ++
    "\n• Mensajes enviados: " ++ toString ((s.messageHistory.lookup room_id).getD []).length ++
    "\n• Creada por: " ++ room.created_by

/-- `ConnectionManager._handle_command` (lines 239-350). The Python body
starts with `user = self.users[connection_id]`; the `none` branch totalizes
the `KeyError` that indexing would raise (every call site has already
checked registration). -/
def handle_command (s : ChatState) (connection_id command ts : String) :
    ChatState × List Out × OpResult :=
  match s.users.lookup connection_id with
  | none => (s, [], failBare)
  | some user =>
    let parts := splitOnce command
    let cmd := lowerStr parts.1
    let args := parts.2
    if cmd = "/help" then
      (s, send_system_message s connection_id helpText ts, okRes)
    else if cmd = "/rooms" then
      (s, send_system_message s connection_id (roomsListing s) ts, okRes)
    else if cmd = "/users" then
      (s, send_system_message s connection_id (usersListing s user.current_room) ts, okRes)
    else if cmd = "/join" then
      if args = "" then
        (s, send_system_message s connection_id "Uso: /join <nombre_sala>" ts, failBare)
      else
        match s.rooms.find? (fun p => p.1 == lowerStr args || lowerStr p.2.name == lowerStr args) with
        | none =>
          (s, send_system_message s connection_id
            ("Sala \x27" ++ args ++ "\x27 no encontrada") ts, failBare)
        | some target =>
          let r := join_room s connection_id target.1 ts
          if r.2.2.success then
            (r.1,
             r.2.1 ++ send_system_message r.1 connection_id
               ("Te has unido a " ++ ((r.1.rooms.lookup target.1).getD defaultRoom).name) ts,
             r.2.2)
          else
            (r.1,
             r.2.1 ++ send_system_message r.1 connection_id
               ("Error: " ++ (r.2.2.error.getD "")) ts,
             r.2.2)
    else if cmd = "/nick" then
      if args = "" then
        (s, send_system_message s connection_id "Uso: /nick <nuevo_nombre>" ts, failBare)
      else if nickTaken s connection_id args then
        (s, send_system_message s connection_id "Ese nombre ya está en uso" ts, failBare)
      else
        let user2 := { user with username := args }
        let s2 := { s with users := setA connection_id user2 s.users }
        (s2,
         broadcast_to_room s2.roomUsers user.current_room
           (.userRenamed user.username args user2 user.current_room ts),
         okRes)
    else if cmd = "/stats" then
      (s, send_system_message s connection_id (statsText s user.current_room) ts, okRes)
    else
      (s, send_system_message s connection_id ("Comando desconocido: " ++ cmd) ts, failBare)

/-- `ConnectionManager.send_message` (lines 199-237); the `message_type`
parameter always takes its default value `'message'` at every call site. -/
def send_message (s : ChatState) (connection_id content msgId ts : String) :
    ChatState × List Out × OpResult :=
  match s.users.lookup connection_id with
  | none => (s, [], failRes "Usuario no registrado")
  | some user =>
    let room_id := user.current_room
    if room_id = "" ∨ s.rooms.lookup room_id = none then
      (s, [], failRes "No estás en una sala válida")
    else if isCommand content then
      handle_command s connection_id content ts
    else
      let message : Message := ⟨msgId, "message", user, content, room_id, ts⟩
      let s1 := { s with messageHistory := updA room_id (fun h => pushTrim h message) s.messageHistory }
      (s1, broadcast_to_room s1.roomUsers room_id (.newMessage message),
       ⟨true, none, none, none, some message⟩)

/-- `ConnectionManager._broadcast_to_room` (lines 361-379) with its delivery
pass made explicit: `fails` is the set of connections whose transport
`send_text` raises. Active members outside `fails` receive the payload, in
snapshot order; members that are inactive or whose send failed are collected
into `disconnected` during the pass and passed to `disconnect` only after
the iteration over the snapshot completes. -/
def broadcast_to_room_run (s : ChatState) (room_id : String) (p : Payload)
    (fails : List String) (ts : String) : ChatState × List Out :=
  match s.roomUsers.lookup room_id with
  | none => (s, [])
  | some members =>
    let sends := members.filterMap (fun c =>
      if s.activeConnections.contains c && !(fails.contains c) then some (Out.send c p)
      else none)
    let disconnected := members.filter (fun c =>
      !(s.activeConnections.contains c) || fails.contains c)
    disconnected.foldl
      (fun acc c =>
        let r := disconnect acc.1 c ts
        (r.1, acc.2 ++ r.2))
      (s, sends)

/-- One inbound client frame as seen by `websocket_endpoint`:
`json.loads` either raises (`malformed`) or yields a dict, from which the
endpoint reads the optional fields `type`, `username`, `content` and
`room_id` via `.get`. -/
inductive Frame where
  | malformed
  | parsed (type : Option String) (username content room_id : Option String)
deriving DecidableEq

/-- One iteration of the `websocket_endpoint` receive loop (lines 398-435)
on an already-received frame. The `Bool` component signals that an uncaught
exception escaped the iteration (a `json.loads` failure, or the `KeyError`
raised by `result['error']` when a failed `send_message` result has no
`error` key), which the endpoint's `except` handler turns into a
`disconnect`. -/
def handle_frame (s : ChatState) (connection_id avatar msgId ts : String) (f : Frame) :
    ChatState × List Out × Bool :=
  match f with
  | .malformed => (s, [], true)
  | .parsed ty username content room_id =>
    if ty = some "register" then
      let uname := pyStrip (username.getD "")
      if uname = "" then
        (s, [Out.send connection_id (.errorMsg "Nombre de usuario requerido")], false)
      else
        let r := register_user s connection_id uname avatar ts
        (r.1, r.2.1 ++ [Out.send connection_id (.registrationResult r.2.2.success r.2.2.user r.2.2.error)],
         false)
    else if ty = some "message" then
      let c := pyStrip (content.getD "")
      if c = "" then (s, [], false)
      else
        let r := send_message s connection_id c msgId ts
        if r.2.2.success then (r.1, r.2.1, false)
        else
          match r.2.2.error with
          | some e => (r.1, r.2.1 ++ [Out.send connection_id (.errorMsg e)], false)
          | none => (r.1, r.2.1, true)
    else if ty = some "join_room" then
      match room_id with
      | none => (s, [], false)
      | some rid =>
        if rid = "" then (s, [], false)
        else
          let r := join_room s connection_id rid ts
          (r.1, r.2.1 ++ [Out.send connection_id (.joinResult r.2.2.success r.2.2.room r.2.2.error)],
           false)
    else (s, [], false)

/-- The `websocket_endpoint` receive loop over a finite inbound stream.
Exhausting the stream stands for the transport signalling closure
(`WebSocketDisconnect`); both that and an escaped exception reach the
`except` handlers, which call `manager.disconnect` and end the session. -/
def websocket_loop (s : ChatState) (connection_id avatar msgId ts : String) :
    List Frame → ChatState × List Out
  | [] => disconnect s connection_id ts
  | f :: rest =>
    let r := handle_frame s connection_id avatar msgId ts f
    if r.2.2 then
      let d := disconnect r.1 connection_id ts
      (d.1, r.2.1 ++ d.2)
    else
      let w := websocket_loop r.1 connection_id avatar msgId ts rest
      (w.1, r.2.1 ++ w.2)

/-- `websocket_endpoint` (lines 389-441): accept the connection, then run
the receive loop. -/
def websocket_endpoint (s : ChatState) (connection_id avatar msgId ts : String)
    (frames : List Frame) : ChatState × List Out :=
  websocket_loop (connect s connection_id) connection_id avatar msgId ts frames

/-! ### States, predicates and traces used by the verification -/

def wUserZ : User := ⟨"z", "zoe", "#F0F0F0", "t0", "general"⟩

def wPythonMembers : List String := (List.range 25).map (fun i => "p" ++ toString i)

def wPythonRoom : Room :=
  ⟨"python", "Python", "Todo sobre Python y sus frameworks", true, 25, "system"⟩

/-- A state in which room `python` (capacity 25) holds 25 distinct occupants
and user `z` occupies `general` (Scenario B). -/
def fullState : ChatState :=
  { initialState with
    users := [("z", wUserZ)]
    roomUsers := [("general", ["z"]), ("tecnologia", []), ("python", wPythonMembers)] }

/-- The success branch of `join_room` (lines 166-197), with the looked-up
user and room made explicit. -/
def join_room_ok (s : ChatState) (c r ts : String) (u : User) (room : Room) :
    ChatState × List Out × OpResult :=
  let doOld : Bool := u.current_room != "" && (s.roomUsers.lookup u.current_room).isSome
  let ru1 :=
    if doOld then updA u.current_room (fun l => l.filter (fun x => x != c)) s.roomUsers
    else s.roomUsers
  let ru2 := updA r (addMember c) ru1
  ({ s with roomUsers := ru2, users := setA c { u with current_room := r } s.users },
   (if doOld then [Out.broadcast u.current_room (.userLeft u u.current_room ts)] else [])
     ++ broadcast_to_room ru2 r (.userJoined { u with current_room := r } r ts)
     ++ (if s.activeConnections.contains c then
           [Out.send c (.messageHistoryMsg (lastN 50 ((s.messageHistory.lookup r).getD [])) r)]
         else []),
   ⟨true, none, none, some room, none⟩)

def aliceState : ChatState := (register_user initialState "a1" "alice" "#C1" "t1").1

def wMsg : Message := ⟨"m0", "message", wUserZ, "hola", "general", "t3"⟩

def nickState : ChatState :=
  { initialState with
    activeConnections := ["b1", "b2"]
    users := [("b1", ⟨"b1", "bob", "#B1", "t0", "general"⟩),
              ("b2", ⟨"b2", "carla", "#B2", "t0", "general"⟩)]
    roomUsers := [("general", ["b1", "b2"]), ("tecnologia", []), ("python", [])] }

/-- Recognizes a `new_message` chat event among the outputs. -/
def isNewMessageOut : Out → Bool
  | .broadcast _ (.newMessage _) => true
  | .send _ (.newMessage _) => true
  | _ => false

/-- Recognizes a direct error reply among the outputs. -/
def isErrorSend : Out → Bool
  | .send _ (.errorMsg _) => true
  | _ => false

/-- A reachable-shaped state in which room `general` holds `x1` (active) and
`x2` (inactive): `x2`'s transport dropped but its teardown has not happened
yet when the broadcast starts. -/
def broadcastBadState : ChatState :=
  { initialState with
    activeConnections := ["x1"]
    users := [("x1", ⟨"x1", "ana", "#A", "t0", "general"⟩),
              ("x2", ⟨"x2", "ben", "#B", "t0", "general"⟩)]
    roomUsers := [("general", ["x1", "x2"]), ("tecnologia", []), ("python", [])] }

/-- The consistency property claimed by C1: every registered user's
current-room pointer names a room whose membership set contains that user's
connection id, or the pointer is empty and no room's membership set
contains the connection id. -/
def currentRoomConsistent (s : ChatState) : Prop :=
  ∀ p ∈ s.users,
    ((s.roomUsers.lookup p.2.current_room).isSome = true
      ∧ p.1 ∈ (s.roomUsers.lookup p.2.current_room).getD [])
    ∨ (p.2.current_room = "" ∧ ∀ q ∈ s.roomUsers, p.1 ∉ q.2)

instance (s : ChatState) : Decidable (currentRoomConsistent s) := by
  unfold currentRoomConsistent
  infer_instance

/-- A trace of `n` Register operations with distinct connection ids and
distinct usernames, starting from `s`. -/
def regMany (n : Nat) (s : ChatState) : ChatState :=
  (List.range n).foldl
    (fun st i => (register_user st ("c" ++ toString i) ("u" ++ toString i) "#FF6B6B" "t").1) s

/-- Per-user consistency, amended with the escape clause for a user whose
automatic join at registration failed: either the pointer is fully
consistent (a room entry for it exists and membership sets contain the
connection id exactly for the pointed room), or the user is in no membership
set and the pointer reads `general`. -/
def userConsistent (s : ChatState) (p : String × User) : Prop :=
  ((s.roomUsers.lookup p.2.current_room).isSome = true
    ∧ ∀ q ∈ s.roomUsers, (q.2.contains p.1 = true ↔ q.1 = p.2.current_room))
  ∨ ((∀ q ∈ s.roomUsers, q.2.contains p.1 = false) ∧ p.2.current_room = "general")

/-- The amended reachable-state invariant: the room registry and presence
table keep exactly the three seeded keys, every room member is a registered
connection, and every registered user is `userConsistent`. -/
def invariantAmended (s : ChatState) : Prop :=
  s.rooms.map Prod.fst = ["general", "tecnologia", "python"]
  ∧ s.roomUsers.map Prod.fst = ["general", "tecnologia", "python"]
  ∧ (∀ q ∈ s.roomUsers, ∀ d ∈ q.2, (s.users.lookup d).isSome = true)
  ∧ (∀ p ∈ s.users, userConsistent s p)

instance (s : ChatState) (p : String × User) : Decidable (userConsistent s p) := by
  unfold userConsistent
  infer_instance

instance (s : ChatState) : Decidable (invariantAmended s) := by
  unfold invariantAmended
  infer_instance

/-! ### Association-list and membership helper lemmas -/

theorem lookup_mem {α : Type} {l : List (String × α)} {k : String} {v : α}
    (h : l.lookup k = some v) : (k, v) ∈ l := by
  induction l with
  | nil => simp at h
  | cons p t ih =>
    obtain ⟨k1, v1⟩ := p
    rw [List.lookup_cons] at h
    by_cases hk : k = k1
    · subst hk
      simp only [beq_self_eq_true] at h
      simp only [Option.some.injEq] at h
      subst h
      exact List.mem_cons_self _ _
    · have hb : (k == k1) = false := by simp [hk]
      rw [hb] at h
      exact List.mem_cons_of_mem _ (ih h)

theorem lookup_isSome_of_mem {α : Type} {l : List (String × α)} {k : String} {v : α}
    (h : (k, v) ∈ l) : (l.lookup k).isSome := by
  rw [List.lookup_isSome_iff]
  exact ⟨(k, v), h, by simp⟩

theorem keys_ne_of_lookup_none {α : Type} {l : List (String × α)} {k : String}
    (h : l.lookup k = none) : ∀ p ∈ l, p.1 ≠ k := by
  rw [List.lookup_eq_none_iff] at h
  intro p hp
  have := h p hp
  simp at this
  exact fun he => this he.symm

theorem lookup_updA_self {α : Type} {l : List (String × α)} {k : String} {w : α}
    (f : α → α) (h : l.lookup k = some w) : (updA k f l).lookup k = some (f w) := by
  induction l with
  | nil => simp at h
  | cons p t ih =>
    obtain ⟨k1, v1⟩ := p
    rw [List.lookup_cons] at h
    by_cases hk : k = k1
    · subst hk
      simp only [beq_self_eq_true] at h
      simp only [Option.some.injEq] at h
      subst h
      simp [updA]
    · have hb : (k == k1) = false := by simp [hk]
      rw [hb] at h
      have : k1 ≠ k := fun he => hk he.symm
      simp only [updA, List.map_cons, if_neg this, List.lookup_cons, hb]
      exact ih h

theorem lookup_updA_ne {α : Type} {l : List (String × α)} {k k2 : String}
    (f : α → α) (h : k2 ≠ k) : (updA k f l).lookup k2 = l.lookup k2 := by
  induction l with
  | nil => simp [updA]
  | cons p t ih =>
    obtain ⟨k1, v1⟩ := p
    unfold updA at ih ⊢
    simp only [List.map_cons]
    by_cases hk : k1 = k
    · subst hk
      have hb : (k2 == k1) = false := by simp [h]
      rw [if_pos rfl, List.lookup_cons, List.lookup_cons, hb]
      exact ih
    · rw [if_neg hk, List.lookup_cons, List.lookup_cons]
      cases hbeq : k2 == k1
      · exact ih
      · rfl

theorem updA_keys {α : Type} (l : List (String × α)) (k : String) (f : α → α) :
    (updA k f l).map Prod.fst = l.map Prod.fst := by
  unfold updA
  rw [List.map_map]
  apply List.map_congr_left
  intro p _
  by_cases hk : p.1 = k <;> simp [hk]

theorem lookup_append_single_self {α : Type} {l : List (String × α)} {k : String} (v : α)
    (h : l.lookup k = none) : (l ++ [(k, v)]).lookup k = some v := by
  rw [List.lookup_append, h]
  simp

theorem lookup_append_single_ne {α : Type} {l : List (String × α)} {k k2 : String} (v : α)
    (h : k2 ≠ k) : (l ++ [(k, v)]).lookup k2 = l.lookup k2 := by
  rw [List.lookup_append]
  have hb : (k2 == k) = false := by simp [h]
  rw [List.lookup_cons, hb]
  simp

theorem lookup_setA_self {α : Type} (l : List (String × α)) (k : String) (v : α) :
    (setA k v l).lookup k = some v := by
  unfold setA
  split
  · next hs =>
    obtain ⟨w, hw⟩ := Option.isSome_iff_exists.mp hs
    clear hs
    induction l with
    | nil => simp at hw
    | cons p t ih =>
      obtain ⟨k1, v1⟩ := p
      rw [List.lookup_cons] at hw
      by_cases hk : k = k1
      · subst hk
        simp [List.lookup_cons]
      · have hb : (k == k1) = false := by simp [hk]
        rw [hb] at hw
        have hne : k1 ≠ k := fun he => hk he.symm
        simp only [List.map_cons, if_neg hne, List.lookup_cons, hb]
        exact ih hw
  · next hs =>
    have hn : l.lookup k = none := by
      cases h : l.lookup k
      · rfl
      · rw [h] at hs; simp at hs
    exact lookup_append_single_self v hn

theorem lookup_map_update_ne {α : Type} (l : List (String × α)) (k k2 : String) (v : α)
    (h : k2 ≠ k) :
    (l.map (fun p => if p.1 = k then (k, v) else p)).lookup k2 = l.lookup k2 := by
  induction l with
  | nil => simp
  | cons p t ih =>
    obtain ⟨k1, v1⟩ := p
    simp only [List.map_cons]
    by_cases hk : k1 = k
    · subst hk
      have hb : (k2 == k1) = false := by simp [h]
      rw [if_pos rfl, List.lookup_cons, List.lookup_cons, hb]
      exact ih
    · rw [if_neg hk, List.lookup_cons, List.lookup_cons]
      cases hbeq : k2 == k1
      · exact ih
      · rfl

theorem lookup_setA_ne {α : Type} (l : List (String × α)) (k k2 : String) (v : α)
    (h : k2 ≠ k) : (setA k v l).lookup k2 = l.lookup k2 := by
  unfold setA
  split
  · exact lookup_map_update_ne l k k2 v h
  · exact lookup_append_single_ne v h

theorem mem_setA {α : Type} {l : List (String × α)} {k : String} {v : α} {p : String × α}
    (h : p ∈ setA k v l) : (p ∈ l ∧ p.1 ≠ k) ∨ p = (k, v) := by
  unfold setA at h
  split at h
  · rw [List.mem_map] at h
    obtain ⟨q, hq, he⟩ := h
    by_cases hk : q.1 = k
    · right; rw [if_pos hk] at he; exact he.symm
    · left; rw [if_neg hk] at he; exact he ▸ ⟨hq, hk⟩
  · next hs =>
    have hn : l.lookup k = none := by
      cases hh : l.lookup k
      · rfl
      · rw [hh] at hs; simp at hs
    rw [List.mem_append] at h
    cases h with
    | inl h => exact Or.inl ⟨h, keys_ne_of_lookup_none hn p h⟩
    | inr h => simp at h; exact Or.inr (by cases p; simp at h; simp [h])

theorem filter_ne_contains_self (l : List String) (c : String) :
    ((l.filter (fun x => x != c)).contains c) = false := by
  simp only [List.contains_eq_any_beq, List.any_eq_false]
  intro x hx
  rw [List.mem_filter] at hx
  have := hx.2
  simp only [bne_iff_ne, ne_eq] at this
  simp [Ne.symm this]

theorem filter_ne_eq_self_of_not_contains {l : List String} {c : String}
    (h : l.contains c = false) : l.filter (fun x => x != c) = l := by
  rw [List.filter_eq_self]
  intro a ha
  simp only [bne_iff_ne, ne_eq]
  intro he
  subst he
  rw [List.contains_eq_any_beq] at h
  simp only [List.any_eq_false] at h
  exact absurd (by simp : (a == a) = true) (by simpa using h a ha)

theorem lookup_filter_key_none {α : Type} (l : List (String × α)) (k : String) :
    ((l.filter (fun p => p.1 != k)).lookup k) = none := by
  rw [List.lookup_eq_none_iff]
  intro p hp
  rw [List.mem_filter] at hp
  have := hp.2
  simp only [bne_iff_ne, ne_eq] at this
  simp [Ne.symm this]

theorem contains_filter_ne {l : List String} {c x : String} (h : x ≠ c) :
    ((l.filter (fun y => y != c)).contains x) = l.contains x := by
  simp only [List.contains_eq_any_beq, List.any_filter]
  congr 1
  funext a
  by_cases ha : x = a
  · subst ha; simp [h]
  · simp [ha]

theorem contains_addMember_self (l : List String) (c : String) :
    ((addMember c l).contains c) = true := by
  unfold addMember
  split
  · next h => exact h
  · simp [List.contains_eq_any_beq]

theorem contains_addMember_ne {l : List String} {c x : String} (h : x ≠ c) :
    ((addMember c l).contains x) = l.contains x := by
  unfold addMember
  split
  · rfl
  · simp only [List.contains_eq_any_beq, List.any_append, List.any_cons, List.any_nil]
    simp [h]

theorem mem_addMember {l : List String} {c x : String} (h : x ∈ addMember c l) :
    x ∈ l ∨ x = c := by
  unfold addMember at h
  split at h
  · exact Or.inl h
  · rw [List.mem_append] at h
    cases h with
    | inl h => exact Or.inl h
    | inr h => simp at h; exact Or.inr h

/-! ### Claim C2 -/

/-- Claim C2: for a registered user and an existing room whose occupancy is at
or above its capacity, `join_room` fails with the `Sala llena` (`RoomFull`)
error and returns the state completely unchanged — in particular the user was
not removed from any prior room, because the capacity check precedes the
removal. -/
theorem c2_join_full_unchanged (s : ChatState) (c r ts : String) (u : User) (room : Room)
    (ms : List String)
    (hu : s.users.lookup c = some u)
    (hr : s.rooms.lookup r = some room)
    (hm : s.roomUsers.lookup r = some ms)
    (hfull : room.max_users ≤ ms.length) :
    join_room s c r ts = (s, [], failRes "Sala llena") := by
  unfold join_room
  rw [hu, hr, hm]
  simp [hfull]

theorem c2_join_full_unchanged_witness :
    join_room fullState "z" "python" "t1" = (fullState, [], failRes "Sala llena") :=
  c2_join_full_unchanged fullState "z" "python" "t1" wUserZ wPythonRoom wPythonMembers
    (by decide) (by decide) (by decide) (by decide)

/-! ### Claim C5 -/

theorem filter_ne_idem (l : List String) (c : String) :
    ((l.filter (fun x => x != c)).filter (fun x => x != c)) = l.filter (fun x => x != c) := by
  rw [List.filter_filter]
  simp

/-- `disconnect` is the identity (with no emissions) on a state that holds no
trace of the connection. -/
theorem disconnect_clean (s : ChatState) (c ts : String)
    (hu : s.users.lookup c = none)
    (ha : s.activeConnections.contains c = false)
    (hm : ∀ q ∈ s.roomUsers, q.2.contains c = false) :
    disconnect s c ts = (s, []) := by
  unfold disconnect
  rw [hu]
  have h1 : s.activeConnections.filter (fun x => x != c) = s.activeConnections :=
    filter_ne_eq_self_of_not_contains ha
  have h2 : s.roomUsers.map (fun q => (q.1, q.2.filter (fun x => x != c))) = s.roomUsers := by
    conv_rhs => rw [← List.map_id s.roomUsers]
    apply List.map_congr_left
    intro q hq
    have := filter_ne_eq_self_of_not_contains (hm q hq)
    simp [this]
  rw [h1, h2]

/-- After a `disconnect`, the state retains no trace of the connection. -/
theorem disconnect_scrubbed (s : ChatState) (c ts : String) :
    (disconnect s c ts).1.users.lookup c = none
    ∧ (disconnect s c ts).1.activeConnections.contains c = false
    ∧ (∀ q ∈ (disconnect s c ts).1.roomUsers, q.2.contains c = false) := by
  unfold disconnect
  cases hu : s.users.lookup c with
  | some u =>
    refine ⟨lookup_filter_key_none s.users c, filter_ne_contains_self _ c, ?_⟩
    intro q hq
    simp only [List.mem_map] at hq
    obtain ⟨q0, _, he⟩ := hq
    subst he
    exact filter_ne_contains_self _ c
  | none =>
    refine ⟨hu, filter_ne_contains_self _ c, ?_⟩
    intro q hq
    simp only [List.mem_map] at hq
    obtain ⟨q0, _, he⟩ := hq
    subst he
    exact filter_ne_contains_self _ c

/-- Claim C5: Teardown is idempotent — a second `disconnect` on the same
connection id leaves the state exactly as after the first and emits no
events (no second `user_left` broadcast, no error); moreover a `disconnect`
on a connection that never completed registration emits nothing. -/
theorem c5_teardown_idempotent (s : ChatState) (c ts ts2 : String) :
    (disconnect (disconnect s c ts).1 c ts2).1 = (disconnect s c ts).1
    ∧ (disconnect (disconnect s c ts).1 c ts2).2 = []
    ∧ (s.users.lookup c = none → (disconnect s c ts).2 = []) := by
  obtain ⟨h1, h2, h3⟩ := disconnect_scrubbed s c ts
  have hclean := disconnect_clean (disconnect s c ts).1 c ts2 h1 h2 h3
  refine ⟨?_, ?_, ?_⟩
  · rw [hclean]
  · rw [hclean]
  · intro hu
    unfold disconnect
    rw [hu]

theorem c5_teardown_idempotent_witness :
    (disconnect (disconnect fullState "z" "t1").1 "z" "t2").1 = (disconnect fullState "z" "t1").1
    ∧ (disconnect fullState "c9" "t1").2 = [] :=
  ⟨(c5_teardown_idempotent fullState "z" "t1" "t2").1,
   (c5_teardown_idempotent fullState "c9" "t1" "t2").2.2 (by decide)⟩

/-! ### Characterization of a successful join -/

theorem broadcast_to_room_of_isSome {ru : List (String × List String)} {r : String}
    (p : Payload) (h : (ru.lookup r).isSome = true) :
    broadcast_to_room ru r p = [Out.broadcast r p] := by
  unfold broadcast_to_room
  rw [if_pos h]

/-- Unfolding of `join_room` in the success case. -/
theorem join_room_eq_ok (s : ChatState) (c r ts : String) (u : User) (room : Room)
    (ms : List String)
    (hu : s.users.lookup c = some u)
    (hr : s.rooms.lookup r = some room)
    (hm : s.roomUsers.lookup r = some ms)
    (hcap : ms.length < room.max_users) :
    join_room s c r ts = join_room_ok s c r ts u room := by
  unfold join_room join_room_ok
  rw [hu, hr, hm]
  simp only [Option.getD_some]
  rw [if_neg (by omega)]

theorem join_ok_users (s : ChatState) (c r ts : String) (u : User) (room : Room) :
    (join_room_ok s c r ts u room).1.users = setA c { u with current_room := r } s.users := rfl

theorem join_ok_rooms (s : ChatState) (c r ts : String) (u : User) (room : Room) :
    (join_room_ok s c r ts u room).1.rooms = s.rooms := rfl

theorem join_ok_active (s : ChatState) (c r ts : String) (u : User) (room : Room) :
    (join_room_ok s c r ts u room).1.activeConnections = s.activeConnections := rfl

theorem join_ok_history (s : ChatState) (c r ts : String) (u : User) (room : Room) :
    (join_room_ok s c r ts u room).1.messageHistory = s.messageHistory := rfl

theorem join_ok_result (s : ChatState) (c r ts : String) (u : User) (room : Room) :
    (join_room_ok s c r ts u room).2.2 = ⟨true, none, none, some room, none⟩ := rfl

theorem join_ok_roomUsers (s : ChatState) (c r ts : String) (u : User) (room : Room) :
    (join_room_ok s c r ts u room).1.roomUsers =
      updA r (addMember c)
        (if (u.current_room != "" && (s.roomUsers.lookup u.current_room).isSome) = true then
          updA u.current_room (fun l => l.filter (fun x => x != c)) s.roomUsers
        else s.roomUsers) := rfl

theorem join_ok_outs (s : ChatState) (c r ts : String) (u : User) (room : Room) :
    (join_room_ok s c r ts u room).2.1 =
      (if (u.current_room != "" && (s.roomUsers.lookup u.current_room).isSome) = true then
        [Out.broadcast u.current_room (.userLeft u u.current_room ts)]
      else [])
      ++ broadcast_to_room
          (updA r (addMember c)
            (if (u.current_room != "" && (s.roomUsers.lookup u.current_room).isSome) = true then
              updA u.current_room (fun l => l.filter (fun x => x != c)) s.roomUsers
            else s.roomUsers))
          r (.userJoined { u with current_room := r } r ts)
      ++ (if s.activeConnections.contains c then
            [Out.send c (.messageHistoryMsg (lastN 50 ((s.messageHistory.lookup r).getD [])) r)]
          else []) := rfl

/-- Unfolding of `register_user` in the success case. -/
theorem register_user_success (s : ChatState) (c name avatar ts : String)
    (h0 : s.users.lookup c = none)
    (h1 : s.users.any (fun p => lowerStr p.2.username == lowerStr name) = false) :
    register_user s c name avatar ts =
      ((join_room { s with users := setA c ⟨c, name, avatar, ts, "general"⟩ s.users }
          c "general" ts).1,
       (join_room { s with users := setA c ⟨c, name, avatar, ts, "general"⟩ s.users }
          c "general" ts).2.1,
       ⟨true, none, some ⟨c, name, avatar, ts, "general"⟩, none, none⟩) := by
  unfold register_user
  rw [if_neg (by simp [h0]), if_neg (by simp [h1])]

/-- Unfolding of `register_user` when the name checks pass but `general` is
at capacity: the automatic `join_room` is refused at the capacity check
(line 163) and its failure is ignored (line 140), so the registration still
returns the success dict while the only state change is the new user record
— the connection joins no room and no event is emitted. -/
theorem register_user_full (s : ChatState) (c name avatar ts : String) (room : Room)
    (ms : List String)
    (h0 : s.users.lookup c = none)
    (h1 : s.users.any (fun p => lowerStr p.2.username == lowerStr name) = false)
    (hroom : s.rooms.lookup "general" = some room)
    (hms : s.roomUsers.lookup "general" = some ms)
    (hfull : room.max_users ≤ ms.length) :
    register_user s c name avatar ts =
      ({ s with users := setA c ⟨c, name, avatar, ts, "general"⟩ s.users }, [],
       ⟨true, none, some ⟨c, name, avatar, ts, "general"⟩, none, none⟩) := by
  rw [register_user_success s c name avatar ts h0 h1]
  have hu1 : ({ s with users := setA c ⟨c, name, avatar, ts, "general"⟩ s.users } :
      ChatState).users.lookup c = some ⟨c, name, avatar, ts, "general"⟩ :=
    lookup_setA_self s.users c _
  have hr1 : ({ s with users := setA c ⟨c, name, avatar, ts, "general"⟩ s.users } :
      ChatState).rooms.lookup "general" = some room := hroom
  have hm1 : ({ s with users := setA c ⟨c, name, avatar, ts, "general"⟩ s.users } :
      ChatState).roomUsers.lookup "general" = some ms := hms
  have hjr : join_room { s with users := setA c ⟨c, name, avatar, ts, "general"⟩ s.users }
      c "general" ts =
      ({ s with users := setA c ⟨c, name, avatar, ts, "general"⟩ s.users }, [],
       failRes "Sala llena") := by
    unfold join_room
    rw [hu1, hr1, hm1]
    simp [hfull]
  rw [hjr]

/-! ### Claim C3 -/

/-- Counterexample to claim C3 as stated: with `general` (capacity 50) full
after 50 registrations, a 51st registration with a fresh connection id and a
free name still returns the success dict carrying the created User, yet the
connection is a member of no room — the claimed unconditional auto-join to
`general` does not happen. -/
theorem c3_register_counterexample :
    ((register_user (regMany 50 initialState) "c50" "u50" "#FF6B6B" "t").2.2).success = true
    ∧ (∀ q ∈ (register_user (regMany 50 initialState) "c50" "u50" "#FF6B6B" "t").1.roomUsers,
        q.2.contains "c50" = false) := by decide

/-- Claim C3 (amended): Register fails with the already-registered error
when the connection already has a User; fails with the name-taken error when
some currently registered user's name matches case-insensitively (state
unchanged in both failure cases); on success it returns the created User
record (pointing at `general`) and attempts the automatic join to `general`,
which takes effect only while `general` is below capacity: then the final
state holds the new User record and its connection id is a member of
`general`; when `general` is at capacity the registration still returns the
success dict, but the refused join leaves the connection in no room's
membership set and the only state change is the new user record. -/
theorem c3_register (s : ChatState) (c name avatar ts : String) :
    ((s.users.lookup c).isSome = true →
      register_user s c name avatar ts = (s, [], failRes "Usuario ya registrado"))
    ∧ (s.users.lookup c = none →
        s.users.any (fun p => lowerStr p.2.username == lowerStr name) = true →
        register_user s c name avatar ts = (s, [], failRes "Nombre de usuario ya en uso"))
    ∧ (s.users.lookup c = none →
        s.users.any (fun p => lowerStr p.2.username == lowerStr name) = false →
        (register_user s c name avatar ts).2.2 =
          ⟨true, none, some ⟨c, name, avatar, ts, "general"⟩, none, none⟩
        ∧ (∀ room ms, s.rooms.lookup "general" = some room →
            s.roomUsers.lookup "general" = some ms →
            (ms.length < room.max_users →
              ((register_user s c name avatar ts).1.users.lookup c =
                  some ⟨c, name, avatar, ts, "general"⟩
                ∧ (((register_user s c name avatar ts).1.roomUsers.lookup "general").getD
                    []).contains c = true))
            ∧ (room.max_users ≤ ms.length →
              register_user s c name avatar ts =
                ({ s with users := setA c ⟨c, name, avatar, ts, "general"⟩ s.users }, [],
                 ⟨true, none, some ⟨c, name, avatar, ts, "general"⟩, none, none⟩)))) := by
  refine ⟨?_, ?_, ?_⟩
  · intro h
    unfold register_user
    rw [if_pos h]
  · intro h0 h1
    unfold register_user
    rw [if_neg (by simp [h0]), if_pos h1]
  · intro h0 h1
    refine ⟨by rw [register_user_success s c name avatar ts h0 h1], ?_⟩
    intro room ms hroom hms
    refine ⟨?_, fun hfull => register_user_full s c name avatar ts room ms h0 h1 hroom hms hfull⟩
    intro hcap
    rw [register_user_success s c name avatar ts h0 h1]
    have hu1 : ({ s with users := setA c ⟨c, name, avatar, ts, "general"⟩ s.users } :
        ChatState).users.lookup c = some ⟨c, name, avatar, ts, "general"⟩ :=
      lookup_setA_self s.users c _
    rw [join_room_eq_ok _ c "general" ts ⟨c, name, avatar, ts, "general"⟩ room ms hu1 hroom
      hms hcap]
    constructor
    · rw [join_ok_users]
      exact lookup_setA_self _ c _
    · rw [join_ok_roomUsers]
      have hdo : ((⟨c, name, avatar, ts, "general"⟩ : User).current_room != ""
          && (({ s with users := setA c ⟨c, name, avatar, ts, "general"⟩ s.users } :
              ChatState).roomUsers.lookup
            (⟨c, name, avatar, ts, "general"⟩ : User).current_room).isSome) = true := by
        simp [hms]
      rw [if_pos hdo]
      have hru1 := lookup_updA_self (l := s.roomUsers) (k := "general") (w := ms)
        (fun l => l.filter (fun x => x != c)) hms
      have hru2 := lookup_updA_self (l := updA "general" (fun l => l.filter (fun x => x != c))
        s.roomUsers) (k := "general") (addMember c) hru1
      rw [hru2]
      simp only [Option.getD_some]
      exact contains_addMember_self _ c

theorem c3_register_witness :
    register_user aliceState "a2" "Alice" "#C2" "t2" =
      (aliceState, [], failRes "Nombre de usuario ya en uso") :=
  (c3_register aliceState "a2" "Alice" "#C2" "t2").2.1 (by decide) (by decide)

/-! ### Claim C4 -/

theorem length_lastN {α : Type} (n : Nat) (l : List α) :
    (lastN n l).length = min n l.length := by
  simp only [lastN, List.length_drop]
  omega

theorem pushTrim_eq (h : List Message) (m : Message) :
    pushTrim h m = lastN 100 (h ++ [m]) := by
  show (if 100 < (h ++ [m]).length then lastN 100 (h ++ [m]) else h ++ [m]) = lastN 100 (h ++ [m])
  split
  · rfl
  · next hle =>
    unfold lastN
    have h0 : (h ++ [m]).length - 100 = 0 := by omega
    rw [h0, List.drop_zero]

theorem lastN_append_lastN {α : Type} (n : Nat) (l r : List α) :
    lastN n (lastN n l ++ r) = lastN n (l ++ r) := by
  unfold lastN
  have h1 : l.drop (l.length - n) ++ r = (l ++ r).drop (l.length - n) :=
    (List.drop_append_of_le_length (by omega)).symm
  rw [h1, List.drop_drop, List.length_drop, List.length_append]
  congr 1
  omega

theorem lastN_fifty_lastN_hundred {α : Type} (l : List α) :
    lastN 50 (lastN 100 l) = lastN 50 l := by
  unfold lastN
  rw [List.drop_drop, List.length_drop]
  congr 1
  omega

theorem foldl_pushTrim (msgs : List Message) : ∀ h0 : List Message, h0.length ≤ 100 →
    List.foldl pushTrim h0 msgs = lastN 100 (h0 ++ msgs) := by
  induction msgs with
  | nil =>
    intro h0 hl
    unfold lastN
    have h0l : h0.length - 100 = 0 := by omega
    simp [h0l]
  | cons m rest ih =>
    intro h0 hl
    have h1 : (pushTrim h0 m).length ≤ 100 := by
      rw [pushTrim_eq, length_lastN]; omega
    have h2 : List.foldl pushTrim h0 (m :: rest) = List.foldl pushTrim (pushTrim h0 m) rest := rfl
    rw [h2, ih _ h1, pushTrim_eq, lastN_append_lastN]
    simp

/-- Claim C4: the History Ring. A non-command `send_message` appends the
constructed Message to the current room's history through `pushTrim`
(append, then keep the last 100). Starting from the empty history a sequence
of sends retains exactly the most recent 100 in send order
(`lastN 100 msgs`), so the length is `min 100 n` and the 50-entry replay
window equals the most recent 50 of all sends; after 101 sends the history
is exactly the most recent 100 and the replay exactly the most recent 50.
On a successful join by an active connection the last emission is the
private replay of the most recent 50 history entries. -/
theorem c4_history_ring :
    (∀ s c content msgId ts u h,
       s.users.lookup c = some u →
       u.current_room ≠ "" →
       (s.rooms.lookup u.current_room).isSome = true →
       s.messageHistory.lookup u.current_room = some h →
       isCommand content = false →
       (send_message s c content msgId ts).1.messageHistory.lookup u.current_room =
         some (pushTrim h ⟨msgId, "message", u, content, u.current_room, ts⟩))
    ∧ (∀ msgs : List Message,
        List.foldl pushTrim [] msgs = lastN 100 msgs
        ∧ (List.foldl pushTrim [] msgs).length = min 100 msgs.length
        ∧ lastN 50 (List.foldl pushTrim [] msgs) = lastN 50 msgs)
    ∧ (∀ msgs : List Message, msgs.length = 101 →
        List.foldl pushTrim [] msgs = msgs.drop 1
        ∧ lastN 50 (List.foldl pushTrim [] msgs) = msgs.drop 51)
    ∧ (∀ s c r ts u room ms h,
        s.users.lookup c = some u →
        s.rooms.lookup r = some room →
        s.roomUsers.lookup r = some ms →
        ms.length < room.max_users →
        s.messageHistory.lookup r = some h →
        s.activeConnections.contains c = true →
        (join_room s c r ts).2.1.getLast? =
          some (Out.send c (.messageHistoryMsg (lastN 50 h) r))) := by
  have hfold : ∀ msgs : List Message, List.foldl pushTrim [] msgs = lastN 100 msgs := by
    intro msgs
    have := foldl_pushTrim msgs [] (by simp)
    simpa using this
  refine ⟨?_, ?_, ?_, ?_⟩
  · intro s c content msgId ts u h hu hne hroom hh hcmd
    unfold send_message
    rw [hu]
    dsimp only
    rw [if_neg ?hcond]
    case hcond =>
      intro hor
      cases hor with
      | inl h1 => exact hne h1
      | inr h2 => rw [h2] at hroom; simp at hroom
    rw [if_neg (by simp [hcmd])]
    show (updA u.current_room
        (fun hh => pushTrim hh ⟨msgId, "message", u, content, u.current_room, ts⟩)
        s.messageHistory).lookup u.current_room = _
    exact lookup_updA_self _ hh
  · intro msgs
    refine ⟨hfold msgs, ?_, ?_⟩
    · rw [hfold msgs, length_lastN]
    · rw [hfold msgs, lastN_fifty_lastN_hundred]
  · intro msgs hlen
    constructor
    · rw [hfold msgs]
      unfold lastN
      rw [hlen]
    · rw [hfold msgs, lastN_fifty_lastN_hundred]
      unfold lastN
      rw [hlen]
  · intro s c r ts u room ms h hu hr hm hcap hh hact
    rw [join_room_eq_ok s c r ts u room ms hu hr hm hcap, join_ok_outs]
    rw [hh]
    simp only [Option.getD_some]
    rw [if_pos hact]
    rw [List.getLast?_concat]

theorem c4_history_ring_witness :
    (send_message fullState "z" "hola" "m0" "t3").1.messageHistory.lookup "general" =
      some (pushTrim [] wMsg) :=
  c4_history_ring.1 fullState "z" "hola" "m0" "t3" wUserZ []
    (by decide) (by decide) (by decide) (by decide) (by decide)

/-! ### Claim C10 -/

/-- Counterexample to claim C10 as stated: the claim quantifies over every
successful registration, but when `general` (capacity 50) is already full
the registration still returns the success dict while the automatic join is
refused at the capacity check, before the prior-room block runs — so
neither a `user_left` nor a `user_joined` event is broadcast at all. -/
theorem c10_register_counterexample :
    ((register_user (regMany 50 initialState) "c51" "u51" "#FF6B6B" "t").2.2).success = true
    ∧ (register_user (regMany 50 initialState) "c51" "u51" "#FF6B6B" "t").2.1 = [] := by
  decide

/-- Claim C10 (amended): on a successful registration whose automatic join
to `general` proceeds (occupancy below capacity), because the User record is
created with its current-room pointer already set to `general` before the
automatic join runs, the join step treats `general` as a prior room and
broadcasts a `user_left` event for the brand-new user to `general`
immediately before the `user_joined` broadcast, even though the user was
never a member of any room; when `general` is at capacity, however, the
registration still returns the success dict and neither event is
broadcast. -/
theorem c10_register_user_left_before_joined (s : ChatState) (c name avatar ts : String)
    (room : Room) (ms : List String)
    (h0 : s.users.lookup c = none)
    (h1 : s.users.any (fun p => lowerStr p.2.username == lowerStr name) = false)
    (hroom : s.rooms.lookup "general" = some room)
    (hms : s.roomUsers.lookup "general" = some ms) :
    (ms.length < room.max_users →
      (register_user s c name avatar ts).2.1 =
        [Out.broadcast "general" (.userLeft ⟨c, name, avatar, ts, "general"⟩ "general" ts),
         Out.broadcast "general" (.userJoined ⟨c, name, avatar, ts, "general"⟩ "general" ts)]
        ++ (if s.activeConnections.contains c then
              [Out.send c (.messageHistoryMsg
                (lastN 50 ((s.messageHistory.lookup "general").getD [])) "general")]
            else []))
    ∧ (room.max_users ≤ ms.length →
      ((register_user s c name avatar ts).2.2).success = true
      ∧ (register_user s c name avatar ts).2.1 = []) := by
  constructor
  · intro hcap
    rw [register_user_success s c name avatar ts h0 h1]
    show (join_room { s with users := setA c ⟨c, name, avatar, ts, "general"⟩ s.users }
        c "general" ts).2.1 = _
    rw [join_room_eq_ok { s with users := setA c ⟨c, name, avatar, ts, "general"⟩ s.users }
      c "general" ts ⟨c, name, avatar, ts, "general"⟩ room ms
      (lookup_setA_self s.users c _) hroom hms hcap]
    rw [join_ok_outs]
    dsimp only
    have hdo : (("general" : String) != "" && (s.roomUsers.lookup "general").isSome) = true := by
      simp [hms]
    simp only [if_pos hdo]
    have hru1 := lookup_updA_self (l := s.roomUsers) (k := "general") (w := ms)
      (fun l => l.filter (fun x => x != c)) hms
    have hru2 := lookup_updA_self (l := updA "general" (fun l => l.filter (fun x => x != c))
      s.roomUsers) (k := "general") (addMember c) hru1
    rw [broadcast_to_room_of_isSome _ (by rw [hru2]; rfl)]
    rfl
  · intro hfull
    rw [register_user_full s c name avatar ts room ms h0 h1 hroom hms hfull]
    exact ⟨rfl, rfl⟩

theorem c10_register_user_left_before_joined_witness :
    (register_user initialState "a1" "alice" "#C1" "t1").2.1 =
      [Out.broadcast "general" (.userLeft ⟨"a1", "alice", "#C1", "t1", "general"⟩ "general" "t1"),
       Out.broadcast "general" (.userJoined ⟨"a1", "alice", "#C1", "t1", "general"⟩ "general" "t1")]
      ++ (if initialState.activeConnections.contains "a1" then
            [Out.send "a1" (.messageHistoryMsg
              (lastN 50 ((initialState.messageHistory.lookup "general").getD [])) "general")]
          else []) :=
  (c10_register_user_left_before_joined initialState "a1" "alice" "#C1" "t1"
    ⟨"general", "General", "Sala principal para conversaciones generales", true, 50, "system"⟩
    [] (by decide) (by decide) (by decide) (by decide)).1 (by decide)

/-! ### Splitting of command strings -/

theorem splitCmd_prefix_space (pre x : List Char) (h : ∀ ch ∈ pre, ¬ ch = ' ') :
    splitCmd (pre ++ ' ' :: x) = (pre, x) := by
  induction pre with
  | nil => simp [splitCmd]
  | cons a t ih =>
    have ha : ¬ a = ' ' := h a (List.mem_cons_self _ _)
    simp only [List.cons_append, splitCmd, if_neg ha, List.append_eq]
    rw [ih (fun ch hch => h ch (List.mem_cons_of_mem _ hch))]

theorem splitOnce_space (cmd args : String) (h : ∀ ch ∈ cmd.data, ¬ ch = ' ') :
    splitOnce (cmd ++ " " ++ args) = (cmd, args) := by
  obtain ⟨cd⟩ := cmd
  obtain ⟨ad⟩ := args
  show splitOnce ⟨(cd ++ [' ']) ++ ad⟩ = (⟨cd⟩, ⟨ad⟩)
  unfold splitOnce
  rw [List.append_assoc]
  simp only [List.singleton_append]
  rw [splitCmd_prefix_space cd ad h]

/-! ### Claim C8 -/

/-- Claim C8: a `/nick` rename to a name that case-insensitively matches
another registered user's name fails — the state (and hence the invoker's
name) is unchanged, a private system message is sent, and no `user_renamed`
broadcast is emitted; when no other user holds the name, the rename succeeds
and `user_renamed` is broadcast to the invoker's current room. -/
theorem c8_nick_rename (s : ChatState) (c newName ts : String) (u : User)
    (hu : s.users.lookup c = some u)
    (hne : newName ≠ "")
    (hact : s.activeConnections.contains c = true)
    (hru : (s.roomUsers.lookup u.current_room).isSome = true) :
    (nickTaken s c newName = true →
      handle_command s c ("/nick" ++ " " ++ newName) ts =
        (s, [Out.send c (.systemMessage "Ese nombre ya está en uso" ts)], failBare))
    ∧ (nickTaken s c newName = false →
      handle_command s c ("/nick" ++ " " ++ newName) ts =
        ({ s with users := setA c { u with username := newName } s.users },
         [Out.broadcast u.current_room
           (.userRenamed u.username newName { u with username := newName } u.current_room ts)],
         okRes)) := by
  have hsp : splitOnce ("/nick" ++ " " ++ newName) = ("/nick", newName) :=
    splitOnce_space "/nick" newName (by decide)
  have hlow : lowerStr "/nick" = "/nick" := by decide
  constructor
  · intro htaken
    unfold handle_command
    rw [hu]
    dsimp only
    rw [hsp]
    dsimp only
    rw [hlow]
    rw [if_neg (by decide), if_neg (by decide), if_neg (by decide), if_neg (by decide),
      if_pos rfl, if_neg hne, if_pos htaken]
    unfold send_system_message
    rw [if_pos hact]
  · intro hfree
    unfold handle_command
    rw [hu]
    dsimp only
    rw [hsp]
    dsimp only
    rw [hlow]
    rw [if_neg (by decide), if_neg (by decide), if_neg (by decide), if_neg (by decide),
      if_pos rfl, if_neg hne, if_neg (by rw [hfree]; exact Bool.false_ne_true)]
    rw [broadcast_to_room_of_isSome _ hru]

theorem c8_nick_rename_witness :
    handle_command nickState "b2" ("/nick" ++ " " ++ "Bob") "t5" =
      (nickState, [Out.send "b2" (.systemMessage "Ese nombre ya está en uso" "t5")], failBare) :=
  (c8_nick_rename nickState "b2" "Bob" "t5" ⟨"b2", "carla", "#B2", "t0", "general"⟩
    (by decide) (by decide) (by decide) (by decide)).1 (by decide)

/-! ### Claim C9 -/

theorem send_system_message_no_newMessage (s : ChatState) (c m ts : String) :
    (send_system_message s c m ts).any isNewMessageOut = false := by
  unfold send_system_message
  split <;> rfl

theorem join_room_history (s : ChatState) (c r ts : String) :
    (join_room s c r ts).1.messageHistory = s.messageHistory := by
  unfold join_room
  split
  · rfl
  split
  · rfl
  split
  · rfl
  rfl

theorem join_room_message_none (s : ChatState) (c r ts : String) :
    (join_room s c r ts).2.2.message = none := by
  unfold join_room
  split
  · rfl
  split
  · rfl
  split
  · rfl
  rfl

theorem join_room_no_newMessage (s : ChatState) (c r ts : String) :
    (join_room s c r ts).2.1.any isNewMessageOut = false := by
  unfold join_room
  split
  · rfl
  split
  · rfl
  split
  · rfl
  dsimp only
  simp only [List.any_append, Bool.or_eq_false_iff]
  refine ⟨⟨?_, ?_⟩, ?_⟩
  · split <;> rfl
  · unfold broadcast_to_room
    split <;> split <;> rfl
  · split <;> rfl

theorem handle_command_no_chat_effects (s : ChatState) (c command ts : String) :
    (handle_command s c command ts).1.messageHistory = s.messageHistory
    ∧ (handle_command s c command ts).2.1.any isNewMessageOut = false
    ∧ (handle_command s c command ts).2.2.message = none := by
  unfold handle_command
  split
  · exact ⟨rfl, rfl, rfl⟩
  dsimp only
  by_cases h1 : lowerStr (splitOnce command).1 = "/help"
  · rw [if_pos h1]
    exact ⟨rfl, send_system_message_no_newMessage s c helpText ts, rfl⟩
  rw [if_neg h1]
  by_cases h2 : lowerStr (splitOnce command).1 = "/rooms"
  · rw [if_pos h2]
    exact ⟨rfl, send_system_message_no_newMessage s c (roomsListing s) ts, rfl⟩
  rw [if_neg h2]
  by_cases h3 : lowerStr (splitOnce command).1 = "/users"
  · rw [if_pos h3]
    exact ⟨rfl, send_system_message_no_newMessage s c _ ts, rfl⟩
  rw [if_neg h3]
  by_cases h4 : lowerStr (splitOnce command).1 = "/join"
  · rw [if_pos h4]
    by_cases ha : (splitOnce command).2 = ""
    · rw [if_pos ha]
      exact ⟨rfl, send_system_message_no_newMessage s c _ ts, rfl⟩
    rw [if_neg ha]
    cases hfind : s.rooms.find? (fun p =>
        p.1 == lowerStr (splitOnce command).2 ||
        lowerStr p.2.name == lowerStr (splitOnce command).2) with
    | none =>
      dsimp only
      exact ⟨rfl, send_system_message_no_newMessage s c _ ts, rfl⟩
    | some target =>
      dsimp only
      by_cases hs : (join_room s c target.1 ts).2.2.success = true
      · rw [if_pos hs]
        refine ⟨join_room_history s c target.1 ts, ?_, join_room_message_none s c target.1 ts⟩
        rw [List.any_append, join_room_no_newMessage, send_system_message_no_newMessage]
        rfl
      · rw [if_neg hs]
        refine ⟨join_room_history s c target.1 ts, ?_, join_room_message_none s c target.1 ts⟩
        rw [List.any_append, join_room_no_newMessage, send_system_message_no_newMessage]
        rfl
  rw [if_neg h4]
  by_cases h5 : lowerStr (splitOnce command).1 = "/nick"
  · rw [if_pos h5]
    by_cases ha : (splitOnce command).2 = ""
    · rw [if_pos ha]
      exact ⟨rfl, send_system_message_no_newMessage s c _ ts, rfl⟩
    rw [if_neg ha]
    by_cases ht : nickTaken s c (splitOnce command).2 = true
    · rw [if_pos ht]
      exact ⟨rfl, send_system_message_no_newMessage s c _ ts, rfl⟩
    · rw [if_neg ht]
      refine ⟨rfl, ?_, rfl⟩
      unfold broadcast_to_room
      split <;> rfl
  rw [if_neg h5]
  by_cases h6 : lowerStr (splitOnce command).1 = "/stats"
  · rw [if_pos h6]
    exact ⟨rfl, send_system_message_no_newMessage s c _ ts, rfl⟩
  rw [if_neg h6]
  exact ⟨rfl, send_system_message_no_newMessage s c _ ts, rfl⟩

/-- Claim C9: text beginning with `/` transfers control from `send_message`
to the Command Interpreter, which never appends to any room history, never
emits a `new_message` event and never returns a chat Message; unknown verbs
degrade to a private `Comando desconocido` system message with the state
unchanged, empty argument lists for `/join` and `/nick` degrade to private
usage messages with the state unchanged, a system message to an active
connection is a private send, and the verb is matched case-insensitively
(the interpreter dispatches on the lowercased verb, so `/HELP` behaves as
`/help`). -/
theorem c9_interpreter (s : ChatState) (c command content msgId ts : String) (u : User) :
    (s.users.lookup c = some u →
      u.current_room ≠ "" →
      (s.rooms.lookup u.current_room).isSome = true →
      isCommand content = true →
      send_message s c content msgId ts = handle_command s c content ts)
    ∧ ((handle_command s c command ts).1.messageHistory = s.messageHistory
        ∧ (handle_command s c command ts).2.1.any isNewMessageOut = false
        ∧ (handle_command s c command ts).2.2.message = none)
    ∧ (s.users.lookup c = some u →
        lowerStr (splitOnce command).1 ∉
          (["/help", "/rooms", "/users", "/join", "/nick", "/stats"] : List String) →
        handle_command s c command ts =
          (s, send_system_message s c
            ("Comando desconocido: " ++ lowerStr (splitOnce command).1) ts, failBare))
    ∧ (s.users.lookup c = some u →
        lowerStr (splitOnce command).1 = "/join" →
        (splitOnce command).2 = "" →
        handle_command s c command ts =
          (s, send_system_message s c "Uso: /join <nombre_sala>" ts, failBare))
    ∧ (s.users.lookup c = some u →
        lowerStr (splitOnce command).1 = "/nick" →
        (splitOnce command).2 = "" →
        handle_command s c command ts =
          (s, send_system_message s c "Uso: /nick <nuevo_nombre>" ts, failBare))
    ∧ (s.activeConnections.contains c = true →
        send_system_message s c command ts = [Out.send c (.systemMessage command ts)])
    ∧ handle_command s c "/HELP" ts = handle_command s c "/help" ts := by
  refine ⟨?_, handle_command_no_chat_effects s c command ts, ?_, ?_, ?_, ?_, ?_⟩
  · intro hu hne hrm hcmd
    unfold send_message
    rw [hu]
    dsimp only
    rw [if_neg ?hcond]
    case hcond =>
      intro hor
      cases hor with
      | inl hx => exact hne hx
      | inr hx => rw [hx] at hrm; simp at hrm
    rw [if_pos hcmd]
  · intro hu hnot
    unfold handle_command
    rw [hu]
    dsimp only
    have h1 : ¬ lowerStr (splitOnce command).1 = "/help" := fun he => hnot (by rw [he]; simp)
    have h2 : ¬ lowerStr (splitOnce command).1 = "/rooms" := fun he => hnot (by rw [he]; simp)
    have h3 : ¬ lowerStr (splitOnce command).1 = "/users" := fun he => hnot (by rw [he]; simp)
    have h4 : ¬ lowerStr (splitOnce command).1 = "/join" := fun he => hnot (by rw [he]; simp)
    have h5 : ¬ lowerStr (splitOnce command).1 = "/nick" := fun he => hnot (by rw [he]; simp)
    have h6 : ¬ lowerStr (splitOnce command).1 = "/stats" := fun he => hnot (by rw [he]; simp)
    rw [if_neg h1, if_neg h2, if_neg h3, if_neg h4, if_neg h5, if_neg h6]
  · intro hu hj ha
    unfold handle_command
    rw [hu]
    dsimp only
    rw [if_neg (by rw [hj]; decide), if_neg (by rw [hj]; decide), if_neg (by rw [hj]; decide),
      if_pos hj, if_pos ha]
  · intro hu hn ha
    unfold handle_command
    rw [hu]
    dsimp only
    rw [if_neg (by rw [hn]; decide), if_neg (by rw [hn]; decide), if_neg (by rw [hn]; decide),
      if_neg (by rw [hn]; decide), if_pos hn, if_pos ha]
  · intro hact
    unfold send_system_message
    rw [if_pos hact]
  · rfl

theorem c9_interpreter_witness :
    handle_command nickState "b2" "/frobnicate x" "t6" =
      (nickState, send_system_message nickState "b2" ("Comando desconocido: " ++
        lowerStr (splitOnce "/frobnicate x").1) "t6", failBare) :=
  (c9_interpreter nickState "b2" "/frobnicate x" "x" "m" "t6"
    ⟨"b2", "carla", "#B2", "t0", "general"⟩).2.2.1 (by decide) (by decide)

/-! ### Claim C7 -/

/-- Counterexample to claim C7 as stated: in a reachable state where
connection `b2` is active and registered, an unparseable payload does not
produce an error reply and does not keep the session open — the endpoint's
exception handler tears the connection down (it is removed from the active
set), so the state does change and the session ends. -/
theorem c7_malformed_counterexample :
    nickState.activeConnections.contains "b2" = true
    ∧ (websocket_loop nickState "b2" "#A" "m1" "t7" [Frame.malformed]).1.activeConnections.contains
        "b2" = false
    ∧ (websocket_loop nickState "b2" "#A" "m1" "t7" [Frame.malformed]).2.any isErrorSend = false := by
  refine ⟨by decide, by decide, by decide⟩

/-- Claim C7 as amended: an unparseable frame raises, so the endpoint tears
the session down (exactly a `disconnect`, removing the connection from the
active set, all later frames unprocessed) and replies with no error event;
a `register` frame whose username is missing or whitespace-empty is answered
with the generic error event, with no state change and the session open; a
`message` frame with missing or empty content, a `join_room` frame with a
missing or empty room id, and a frame with an unknown or missing type are
silently ignored — no reply, no state change, session open. -/
theorem c7_amended_payload_handling :
    (∀ s c avatar msgId ts rest,
      websocket_loop s c avatar msgId ts (Frame.malformed :: rest) = disconnect s c ts
      ∧ (disconnect s c ts).1.activeConnections.contains c = false
      ∧ (disconnect s c ts).2.any isErrorSend = false)
    ∧ (∀ s c avatar msgId ts username content rid,
        pyStrip (username.getD "") = "" →
        handle_frame s c avatar msgId ts (.parsed (some "register") username content rid) =
          (s, [Out.send c (.errorMsg "Nombre de usuario requerido")], false))
    ∧ (∀ s c avatar msgId ts username content rid,
        pyStrip (content.getD "") = "" →
        handle_frame s c avatar msgId ts (.parsed (some "message") username content rid) =
          (s, [], false))
    ∧ (∀ s c avatar msgId ts username content,
        handle_frame s c avatar msgId ts (.parsed (some "join_room") username content none) =
          (s, [], false))
    ∧ (∀ s c avatar msgId ts username content,
        handle_frame s c avatar msgId ts (.parsed (some "join_room") username content (some "")) =
          (s, [], false))
    ∧ (∀ s c avatar msgId ts ty username content rid,
        ty ≠ some "register" → ty ≠ some "message" → ty ≠ some "join_room" →
        handle_frame s c avatar msgId ts (.parsed ty username content rid) = (s, [], false)) := by
  refine ⟨?_, ?_, ?_, ?_, ?_, ?_⟩
  · intro s c avatar msgId ts rest
    refine ⟨?_, (disconnect_scrubbed s c ts).2.1, ?_⟩
    · simp [websocket_loop, handle_frame]
    · unfold disconnect
      cases hu : s.users.lookup c with
      | some u =>
        dsimp only
        rw [List.any_eq_false]
        intro o ho
        rw [List.mem_map] at ho
        obtain ⟨r, _, he⟩ := ho
        subst he
        simp [isErrorSend]
      | none => rfl
  · intro s c avatar msgId ts username content rid h
    unfold handle_frame
    dsimp only
    rw [if_pos rfl, if_pos h]
  · intro s c avatar msgId ts username content rid h
    unfold handle_frame
    dsimp only
    rw [if_neg (by simp), if_pos rfl, if_pos h]
  · intro s c avatar msgId ts username content
    unfold handle_frame
    dsimp only
    rw [if_neg (by simp), if_neg (by simp), if_pos rfl]
  · intro s c avatar msgId ts username content
    unfold handle_frame
    dsimp only
    rw [if_neg (by simp), if_neg (by simp), if_pos rfl, if_pos rfl]
  · intro s c avatar msgId ts ty username content rid h1 h2 h3
    unfold handle_frame
    dsimp only
    rw [if_neg h1, if_neg h2, if_neg h3]

theorem c7_amended_payload_handling_witness :
    handle_frame nickState "b2" "#A" "m1" "t7" (.parsed (some "register") (some "  ") none none) =
      (nickState, [Out.send "b2" (.errorMsg "Nombre de usuario requerido")], false) :=
  c7_amended_payload_handling.2.1 nickState "b2" "#A" "m1" "t7" (some "  ") none none (by decide)

/-! ### Claim C6 -/

theorem filter_bad_eq_single {M : List String} {bad : String → Bool} {c : String}
    (hnodup : M.Nodup) (hc : c ∈ M) (hiff : ∀ d ∈ M, bad d = true ↔ d = c) :
    M.filter bad = [c] := by
  induction M with
  | nil => simp at hc
  | cons a t ih =>
    rw [List.nodup_cons] at hnodup
    rcases List.mem_cons.mp hc with he | hct
    · have hbada : bad a = true := (hiff a (List.mem_cons_self a t)).mpr he.symm
      rw [List.filter_cons_of_pos hbada]
      have ht : t.filter bad = [] := by
        rw [List.filter_eq_nil_iff]
        intro d hd hbad
        have hdc := (hiff d (List.mem_cons_of_mem a hd)).mp hbad
        rw [hdc, he] at hd
        exact hnodup.1 hd
      rw [ht, ← he]
    · have ha : ¬ bad a = true := by
        intro hbad
        have hac := (hiff a (List.mem_cons_self a t)).mp hbad
        rw [← hac] at hct
        exact hnodup.1 hct
      rw [List.filter_cons_of_neg ha]
      exact ih hnodup.2 hct (fun d hd => hiff d (List.mem_cons_of_mem a hd))

theorem filter_keyed_single {l : List (String × List String)} {r : String} {M : List String}
    {c : String}
    (hkeys : (l.map Prod.fst).Nodup)
    (hM : l.lookup r = some M)
    (honly : ∀ q ∈ l, q.2.contains c = true ↔ q.1 = r) :
    l.filter (fun q => q.2.contains c) = [(r, M)] := by
  induction l with
  | nil => simp at hM
  | cons q t ih =>
    obtain ⟨k, v⟩ := q
    rw [List.map_cons, List.nodup_cons] at hkeys
    rw [List.lookup_cons] at hM
    by_cases hk : r = k
    · subst hk
      simp only [beq_self_eq_true, Option.some.injEq] at hM
      have hpos : (fun (q : String × List String) => q.2.contains c) (r, v) = true :=
        (honly (r, v) (List.mem_cons_self _ _)).mpr rfl
      rw [@List.filter_cons_of_pos _ (fun q => q.2.contains c) (r, v) t hpos]
      have ht : t.filter (fun q => q.2.contains c) = [] := by
        rw [List.filter_eq_nil_iff]
        intro q hq hcon
        have hkr := (honly q (List.mem_cons_of_mem _ hq)).mp hcon
        have hmem := List.mem_map_of_mem Prod.fst hq
        rw [hkr] at hmem
        exact hkeys.1 hmem
      rw [ht, hM]
    · have hb : (r == k) = false := by simp [hk]
      rw [hb] at hM
      have ha : ¬ ((fun (q : String × List String) => q.2.contains c) (k, v) = true) := by
        intro hcon
        exact hk ((honly (k, v) (List.mem_cons_self _ _)).mp hcon).symm
      rw [@List.filter_cons_of_neg _ (fun q => q.2.contains c) (k, v) t ha]
      exact ih hkeys.2 hM (fun q hq => honly q (List.mem_cons_of_mem _ hq))

/-- Counterexample to claim C6 as stated: delivery to the already-inactive
member `x2` is skipped without error, but it is not state-neutral for that
member — the broadcast pass tears `x2` down: its user record is deleted and
it is removed from `general`'s membership set. -/
theorem c6_inactive_counterexample :
    broadcastBadState.users.lookup "x2" = some ⟨"x2", "ben", "#B", "t0", "general"⟩
    ∧ (broadcast_to_room_run broadcastBadState "general" (.systemMessage "hi" "t9") []
        "t9").1.users.lookup "x2" = none
    ∧ ((broadcast_to_room_run broadcastBadState "general" (.systemMessage "hi" "t9") []
        "t9").1.roomUsers.lookup "general").getD [] = ["x1"] :=
  ⟨by decide, by decide, by decide⟩

/-- Claim C6 as amended: during a broadcast pass over the membership
snapshot of room `r`, every active member whose send does not fail receives
the payload; a member that is inactive or whose send fails is skipped (no
delivery emission, the broadcast itself does not fail) but is collected and
torn down only after the iteration completes — all delivery emissions
precede the teardown output — and, when exactly one member `c` is bad and
`c` occupies only room `r`, the pass equals the deliveries to the others
followed by the teardown of `c`: `c` is removed from the user table and
from every membership set, and exactly one `user_left` broadcast for `c` to
its prior room `r` is emitted. -/
theorem c6_broadcast_failure_handling (s : ChatState) (r ts : String) (p : Payload)
    (fails : List String) (c : String) (uc : User) (M : List String)
    (hM : s.roomUsers.lookup r = some M)
    (hnodup : M.Nodup)
    (hkeys : (s.roomUsers.map Prod.fst).Nodup)
    (hcmem : c ∈ M)
    (hbad : s.activeConnections.contains c = false ∨ fails.contains c = true)
    (hgood : ∀ d ∈ M, d ≠ c →
      s.activeConnections.contains d = true ∧ fails.contains d = false)
    (huser : s.users.lookup c = some uc)
    (honly : ∀ q ∈ s.roomUsers, q.2.contains c = true ↔ q.1 = r) :
    broadcast_to_room_run s r p fails ts =
      ((disconnect s c ts).1,
       (M.filterMap (fun d =>
          if s.activeConnections.contains d && !(fails.contains d) then some (Out.send d p)
          else none))
         ++ [Out.broadcast r (.userLeft uc r ts)])
    ∧ (∀ d ∈ M, d ≠ c → Out.send d p ∈ (broadcast_to_room_run s r p fails ts).2)
    ∧ (broadcast_to_room_run s r p fails ts).1.users.lookup c = none
    ∧ (∀ q ∈ (broadcast_to_room_run s r p fails ts).1.roomUsers, q.2.contains c = false)
    ∧ (broadcast_to_room_run s r p fails ts).2.count
        (Out.broadcast r (.userLeft uc r ts)) = 1 := by
  have houts : (disconnect s c ts).2 = [Out.broadcast r (.userLeft uc r ts)] := by
    have hfk : s.roomUsers.filter (fun q => q.2.contains c) = [(r, M)] :=
      filter_keyed_single hkeys hM honly
    unfold disconnect
    rw [huser]
    dsimp only
    rw [hfk]
    rfl
  have hdisc : M.filter (fun d => !(s.activeConnections.contains d) || fails.contains d)
      = [c] := by
    apply filter_bad_eq_single hnodup hcmem
    intro d hd
    constructor
    · intro hbadd
      by_contra hne
      obtain ⟨hact, hfail⟩ := hgood d hd hne
      rw [hact, hfail] at hbadd
      simp at hbadd
    · intro he
      subst he
      cases hbad with
      | inl h => rw [h]; rfl
      | inr h => rw [h]; simp
  have hmain : broadcast_to_room_run s r p fails ts =
      ((disconnect s c ts).1,
       (M.filterMap (fun d =>
          if s.activeConnections.contains d && !(fails.contains d) then some (Out.send d p)
          else none))
         ++ [Out.broadcast r (.userLeft uc r ts)]) := by
    unfold broadcast_to_room_run
    rw [hM]
    dsimp only
    rw [hdisc]
    simp only [List.foldl_cons, List.foldl_nil]
    rw [houts]
  refine ⟨hmain, ?_, ?_, ?_, ?_⟩
  · intro d hd hne
    rw [hmain]
    obtain ⟨hact, hfail⟩ := hgood d hd hne
    apply List.mem_append_left
    rw [List.mem_filterMap]
    exact ⟨d, hd, by rw [hact, hfail]; rfl⟩
  · rw [hmain]
    exact (disconnect_scrubbed s c ts).1
  · rw [hmain]
    exact (disconnect_scrubbed s c ts).2.2
  · rw [hmain, List.count_append]
    have h0 : (M.filterMap (fun d =>
        if s.activeConnections.contains d && !(fails.contains d) then some (Out.send d p)
        else none)).count (Out.broadcast r (.userLeft uc r ts)) = 0 := by
      rw [List.count_eq_zero]
      intro hmem
      rw [List.mem_filterMap] at hmem
      obtain ⟨d, _, he⟩ := hmem
      split at he
      · exact Out.noConfusion (Option.some.inj he)
      · exact Option.noConfusion he
    rw [h0]
    simp

theorem c6_broadcast_failure_handling_witness :
    broadcast_to_room_run broadcastBadState "general" (.systemMessage "hi" "t9") [] "t9" =
      ((disconnect broadcastBadState "x2" "t9").1,
       (["x1", "x2"].filterMap (fun d =>
          if broadcastBadState.activeConnections.contains d
              && !(([] : List String).contains d) then
            some (Out.send d (.systemMessage "hi" "t9"))
          else none))
         ++ [Out.broadcast "general"
              (.userLeft ⟨"x2", "ben", "#B", "t0", "general"⟩ "general" "t9")]) :=
  (c6_broadcast_failure_handling broadcastBadState "general" "t9" (.systemMessage "hi" "t9")
    [] "x2" ⟨"x2", "ben", "#B", "t0", "general"⟩ ["x1", "x2"]
    (by decide) (by decide) (by decide) (by decide) (Or.inl (by decide))
    (by decide) (by decide) (by decide)).1

/-! ### Claim C1 -/

/-- Counterexample to claim C1 as stated: after 51 successful-looking
registrations the room `general` (capacity 50) is full, the 51st user's
automatic join failed, and that user's current-room pointer names `general`
although no room's membership set contains its connection id — the claimed
invariant does not survive a Register whose auto-join hits the capacity
limit. -/
theorem c1_pointer_consistency_counterexample :
    ¬ currentRoomConsistent (regMany 51 initialState) := by decide

theorem contains_iff_mem {l : List String} {a : String} : l.contains a = true ↔ a ∈ l :=
  List.elem_iff

theorem lookup_isSome_iff_keys {α : Type} {l : List (String × α)} {k : String} :
    (l.lookup k).isSome = true ↔ k ∈ l.map Prod.fst := by
  rw [List.lookup_isSome_iff]
  constructor
  · rintro ⟨p, hp, hb⟩
    have : k = p.1 := by simpa using hb
    rw [this]
    exact List.mem_map_of_mem Prod.fst hp
  · intro hk
    rw [List.mem_map] at hk
    obtain ⟨p, hp, he⟩ := hk
    exact ⟨p, hp, by simp [he]⟩

theorem lookup_filter_key_ne {α : Type} (l : List (String × α)) (k c : String) (h : k ≠ c) :
    ((l.filter (fun p => p.1 != c)).lookup k) = l.lookup k := by
  induction l with
  | nil => simp
  | cons p t ih =>
    obtain ⟨k1, v1⟩ := p
    by_cases hk1 : k1 = c
    · subst hk1
      rw [List.filter_cons_of_neg (by simp)]
      have hb : (k == k1) = false := by simp [h]
      rw [List.lookup_cons, hb]
      exact ih
    · rw [List.filter_cons_of_pos (by simp [hk1]), List.lookup_cons, List.lookup_cons]
      cases hbeq : k == k1
      · exact ih
      · rfl

theorem scrub_keys (l : List (String × List String)) (c : String) :
    (l.map (fun q => (q.1, q.2.filter (fun x => x != c)))).map Prod.fst = l.map Prod.fst := by
  rw [List.map_map]
  apply List.map_congr_left
  intro p _
  rfl

theorem join_room_no_user {s : ChatState} {c : String} (r ts : String)
    (h : s.users.lookup c = none) :
    join_room s c r ts = (s, [], failRes "Usuario no registrado") := by
  unfold join_room
  rw [h]

theorem join_room_no_room {s : ChatState} {c r : String} (ts : String) {u : User}
    (hu : s.users.lookup c = some u) (hr : s.rooms.lookup r = none) :
    join_room s c r ts = (s, [], failRes "Sala no encontrada") := by
  unfold join_room
  rw [hu, hr]

theorem join_room_full {s : ChatState} {c r : String} (ts : String) {u : User} {room : Room}
    {ms : List String}
    (hu : s.users.lookup c = some u)
    (hr : s.rooms.lookup r = some room)
    (hm : s.roomUsers.lookup r = some ms)
    (hfull : room.max_users ≤ ms.length) :
    join_room s c r ts = (s, [], failRes "Sala llena") := by
  unfold join_room
  rw [hu, hr, hm]
  simp [hfull]

/-- How the presence table produced by a successful join relates, entry by
entry, to the original one: keys are unchanged, membership of connections
other than the joiner is unchanged, the joiner is in the target room's
entries, out of the old room's entries, and otherwise untouched; and every
member of a new entry is an old member or the joiner. -/
theorem join_ru2_spec (s : ChatState) (c r cr : String) (doOld : Bool) :
    ∀ q ∈ updA r (addMember c)
      (if doOld then updA cr (fun l => l.filter (fun x => x != c)) s.roomUsers
       else s.roomUsers),
    ∃ q0 ∈ s.roomUsers, q.1 = q0.1
      ∧ (∀ x, x ≠ c → q.2.contains x = q0.2.contains x)
      ∧ (q0.1 = r → q.2.contains c = true)
      ∧ (q0.1 ≠ r → doOld = true → q0.1 = cr → q.2.contains c = false)
      ∧ (q0.1 ≠ r → ¬(doOld = true ∧ q0.1 = cr) → q.2.contains c = q0.2.contains c)
      ∧ (∀ d ∈ q.2, d ∈ q0.2 ∨ d = c) := by
  intro q hq
  unfold updA at hq
  cases hdo : doOld with
  | false =>
    rw [hdo, if_neg (by simp)] at hq
    rw [List.mem_map] at hq
    obtain ⟨q0, hq0, he⟩ := hq
    refine ⟨q0, hq0, ?_⟩
    by_cases hqr : q0.1 = r
    · rw [if_pos hqr] at he
      subst he
      refine ⟨rfl, ?_, ?_, ?_, ?_, ?_⟩
      · intro x hx
        exact contains_addMember_ne hx
      · intro _
        exact contains_addMember_self _ _
      · intro hne _ _
        exact absurd hqr hne
      · intro hne _
        exact absurd hqr hne
      · intro d hd
        exact mem_addMember hd
    · rw [if_neg hqr] at he
      subst he
      refine ⟨rfl, fun x _ => rfl, fun h => absurd h hqr, ?_, fun _ _ => rfl, fun d hd => Or.inl hd⟩
      intro _ hdo2 _
      exact absurd hdo2 (by simp)
  | true =>
    rw [hdo, if_pos rfl] at hq
    rw [List.mem_map] at hq
    obtain ⟨q1, hq1, he2⟩ := hq
    rw [List.mem_map] at hq1
    obtain ⟨q0, hq0, he1⟩ := hq1
    refine ⟨q0, hq0, ?_⟩
    by_cases hqcr : q0.1 = cr
    · rw [if_pos hqcr] at he1
      subst he1
      by_cases hqr : q0.1 = r
      · rw [if_pos hqr] at he2
        subst he2
        refine ⟨rfl, ?_, ?_, ?_, ?_, ?_⟩
        · intro x hx
          rw [contains_addMember_ne hx, contains_filter_ne hx]
        · intro _
          exact contains_addMember_self _ _
        · intro hne _ _
          exact absurd hqr hne
        · intro hne _
          exact absurd hqr hne
        · intro d hd
          rcases mem_addMember hd with hd2 | hd2
          · exact Or.inl (List.mem_filter.mp hd2).1
          · exact Or.inr hd2
      · rw [if_neg hqr] at he2
        subst he2
        refine ⟨rfl, ?_, ?_, ?_, ?_, ?_⟩
        · intro x hx
          exact contains_filter_ne hx
        · intro h
          exact absurd h hqr
        · intro _ _ _
          exact filter_ne_contains_self _ _
        · intro _ hcon
          exact absurd ⟨rfl, hqcr⟩ hcon
        · intro d hd
          exact Or.inl (List.mem_filter.mp hd).1
    · rw [if_neg hqcr] at he1
      subst he1
      by_cases hqr : q0.1 = r
      · rw [if_pos hqr] at he2
        subst he2
        refine ⟨rfl, ?_, ?_, ?_, ?_, ?_⟩
        · intro x hx
          exact contains_addMember_ne hx
        · intro _
          exact contains_addMember_self _ _
        · intro hne _ _
          exact absurd hqr hne
        · intro hne _
          exact absurd hqr hne
        · intro d hd
          exact mem_addMember hd
      · rw [if_neg hqr] at he2
        subst he2
        refine ⟨rfl, fun x _ => rfl, fun h => absurd h hqr, ?_, fun _ _ => rfl, fun d hd => Or.inl hd⟩
        intro _ _ hcr
        exact absurd hcr hqcr

/-- The three seeded room keys contain no empty string. -/
theorem seeded_keys_ne_empty {k : String}
    (hk : k ∈ (["general", "tecnologia", "python"] : List String)) : k ≠ "" := by
  simp only [List.mem_cons, List.not_mem_nil, or_false] at hk
  rcases hk with h | h | h <;> (subst h; decide)

/-- A successful `join_room` preserves the amended invariant. -/
theorem join_room_preserves_inv (s : ChatState) (c r ts : String)
    (hinv : invariantAmended s) : invariantAmended (join_room s c r ts).1 := by
  obtain ⟨hrk, hruk, hreg, huc⟩ := hinv
  cases hu : s.users.lookup c with
  | none =>
    rw [join_room_no_user r ts hu]
    exact ⟨hrk, hruk, hreg, huc⟩
  | some u =>
    cases hr : s.rooms.lookup r with
    | none =>
      rw [join_room_no_room ts hu hr]
      exact ⟨hrk, hruk, hreg, huc⟩
    | some room =>
      have hrkeys : r ∈ s.roomUsers.map Prod.fst := by
        rw [hruk, ← hrk]
        exact List.mem_map_of_mem Prod.fst (lookup_mem hr)
      obtain ⟨ms, hms⟩ := Option.isSome_iff_exists.mp (lookup_isSome_iff_keys.mpr hrkeys)
      by_cases hcap : room.max_users ≤ ms.length
      · rw [join_room_full ts hu hr hms hcap]
        exact ⟨hrk, hruk, hreg, huc⟩
      · rw [join_room_eq_ok s c r ts u room ms hu hr hms (by omega)]
        have hspec := join_ru2_spec s c r u.current_room
          (u.current_room != "" && (s.roomUsers.lookup u.current_room).isSome)
        unfold invariantAmended
        refine ⟨?_, ?_, ?_, ?_⟩
        · rw [join_ok_rooms]
          exact hrk
        · rw [join_ok_roomUsers, updA_keys]
          split
          · rw [updA_keys]
            exact hruk
          · exact hruk
        · rw [join_ok_roomUsers, join_ok_users]
          intro q hq d hd
          obtain ⟨q0, hq0, _, _, _, _, _, hsub⟩ := hspec q hq
          rcases hsub d hd with hd0 | hd0
          · by_cases hdc : d = c
            · subst hdc
              rw [lookup_setA_self]
              rfl
            · rw [lookup_setA_ne _ _ _ _ hdc]
              exact hreg q0 hq0 d hd0
          · subst hd0
            rw [lookup_setA_self]
            rfl
        · rw [join_ok_users]
          intro p hp
          unfold userConsistent
          rw [join_ok_roomUsers]
          rcases mem_setA hp with ⟨hpold, hpne⟩ | hpnew
          · -- a user other than the joiner
            rcases huc p hpold with ⟨hsome, hiff⟩ | ⟨hnone, hgen⟩
            · left
              constructor
              · rw [lookup_isSome_iff_keys] at hsome ⊢
                rw [updA_keys]
                split
                · rw [updA_keys]; exact hsome
                · exact hsome
              · intro q hq
                obtain ⟨q0, hq0, hkey, hother, _, _, _, _⟩ := hspec q hq
                rw [hkey, hother p.1 hpne]
                exact hiff q0 hq0
            · right
              refine ⟨?_, hgen⟩
              intro q hq
              obtain ⟨q0, hq0, _, hother, _, _, _, _⟩ := hspec q hq
              rw [hother p.1 hpne]
              exact hnone q0 hq0
          · -- the joiner
            subst hpnew
            dsimp only
            left
            constructor
            · rw [lookup_isSome_iff_keys, updA_keys]
              split
              · rw [updA_keys, hruk]
                rw [hruk] at hrkeys
                exact hrkeys
              · rw [hruk]
                rw [hruk] at hrkeys
                exact hrkeys
            · intro q hq
              obtain ⟨q0, hq0, hkey, _, hin, hout, hkeep, _⟩ := hspec q hq
              rw [hkey]
              by_cases hq0r : q0.1 = r
              · rw [hin hq0r, hq0r]
                simp
              · constructor
                · intro hcon
                  exfalso
                  by_cases hold : ((u.current_room != ""
                      && (s.roomUsers.lookup u.current_room).isSome) = true ∧ q0.1 = u.current_room)
                  · rw [hout hq0r hold.1 hold.2] at hcon
                    exact Bool.false_ne_true hcon
                  · rw [hkeep hq0r hold] at hcon
                    -- the joiner was a member of q0 in the old state
                    rcases huc (c, u) (lookup_mem hu) with ⟨hsomeo, hiffo⟩ | ⟨hnoneo, _⟩
                    · have hq0cr : q0.1 = u.current_room := (hiffo q0 hq0).mp hcon
                      apply hold
                      refine ⟨?_, hq0cr⟩
                      have hne : u.current_room ≠ "" := by
                        apply seeded_keys_ne_empty
                        rw [← hruk, ← hq0cr]
                        exact List.mem_map_of_mem Prod.fst hq0
                      rw [hsomeo]
                      simp [hne]
                    · rw [hnoneo q0 hq0] at hcon
                      exact Bool.false_ne_true hcon
                · intro he
                  exact absurd he hq0r

/-- Creating a fresh user record with pointer `general` preserves the
amended invariant (the new user is in no membership set yet). -/
theorem addUser_preserves_inv (s : ChatState) (c n a ts : String)
    (hinv : invariantAmended s) (hc : s.users.lookup c = none) :
    invariantAmended { s with users := setA c ⟨c, n, a, ts, "general"⟩ s.users } := by
  obtain ⟨hrk, hruk, hreg, huc⟩ := hinv
  unfold invariantAmended
  dsimp only
  refine ⟨hrk, hruk, ?_, ?_⟩
  · intro q hq d hd
    by_cases hdc : d = c
    · subst hdc
      rw [lookup_setA_self]
      rfl
    · rw [lookup_setA_ne _ _ _ _ hdc]
      exact hreg q hq d hd
  · intro p hp
    rcases mem_setA hp with ⟨hpold, _⟩ | hpnew
    · exact huc p hpold
    · subst hpnew
      right
      dsimp only
      refine ⟨?_, rfl⟩
      intro q hq
      cases hcon : q.2.contains c with
      | false => rfl
      | true =>
        exfalso
        have hmem := hreg q hq c (contains_iff_mem.mp hcon)
        rw [hc] at hmem
        exact Bool.false_ne_true hmem

/-- `disconnect` preserves the amended invariant. -/
theorem disconnect_preserves_inv (s : ChatState) (c ts : String)
    (hinv : invariantAmended s) : invariantAmended (disconnect s c ts).1 := by
  obtain ⟨hrk, hruk, hreg, huc⟩ := hinv
  unfold disconnect
  cases hu : s.users.lookup c with
  | some u =>
    unfold invariantAmended userConsistent
    dsimp only
    refine ⟨hrk, by rw [scrub_keys]; exact hruk, ?_, ?_⟩
    · intro q hq d hd
      rw [List.mem_map] at hq
      obtain ⟨q0, hq0, he⟩ := hq
      subst he
      have hd0 := List.mem_filter.mp hd
      have hdc : d ≠ c := by simpa using hd0.2
      rw [lookup_filter_key_ne _ _ _ hdc]
      exact hreg q0 hq0 d hd0.1
    · intro p hp
      have hp0 := List.mem_filter.mp hp
      have hpc : p.1 ≠ c := by simpa using hp0.2
      rcases huc p hp0.1 with ⟨hsome, hiff⟩ | ⟨hnone, hgen⟩
      · left
        constructor
        · rw [lookup_isSome_iff_keys, scrub_keys]
          rw [lookup_isSome_iff_keys] at hsome
          exact hsome
        · intro q hq
          rw [List.mem_map] at hq
          obtain ⟨q0, hq0, he⟩ := hq
          subst he
          dsimp only
          rw [contains_filter_ne hpc]
          exact hiff q0 hq0
      · right
        refine ⟨?_, hgen⟩
        intro q hq
        rw [List.mem_map] at hq
        obtain ⟨q0, hq0, he⟩ := hq
        subst he
        dsimp only
        rw [contains_filter_ne hpc]
        exact hnone q0 hq0
  | none =>
    unfold invariantAmended userConsistent
    dsimp only
    refine ⟨hrk, by rw [scrub_keys]; exact hruk, ?_, ?_⟩
    · intro q hq d hd
      rw [List.mem_map] at hq
      obtain ⟨q0, hq0, he⟩ := hq
      subst he
      have hd0 := List.mem_filter.mp hd
      exact hreg q0 hq0 d hd0.1
    · intro p hp
      have hpc : p.1 ≠ c := keys_ne_of_lookup_none hu p hp
      rcases huc p hp with ⟨hsome, hiff⟩ | ⟨hnone, hgen⟩
      · left
        constructor
        · rw [lookup_isSome_iff_keys, scrub_keys]
          rw [lookup_isSome_iff_keys] at hsome
          exact hsome
        · intro q hq
          rw [List.mem_map] at hq
          obtain ⟨q0, hq0, he⟩ := hq
          subst he
          dsimp only
          rw [contains_filter_ne hpc]
          exact hiff q0 hq0
      · right
        refine ⟨?_, hgen⟩
        intro q hq
        rw [List.mem_map] at hq
        obtain ⟨q0, hq0, he⟩ := hq
        subst he
        dsimp only
        rw [contains_filter_ne hpc]
        exact hnone q0 hq0

/-- The Command Interpreter preserves the amended invariant. -/
theorem handle_command_preserves_inv (s : ChatState) (c command ts : String)
    (hinv : invariantAmended s) : invariantAmended (handle_command s c command ts).1 := by
  unfold handle_command
  cases hu : s.users.lookup c with
  | none => exact hinv
  | some u =>
    dsimp only
    by_cases h1 : lowerStr (splitOnce command).1 = "/help"
    · rw [if_pos h1]; exact hinv
    rw [if_neg h1]
    by_cases h2 : lowerStr (splitOnce command).1 = "/rooms"
    · rw [if_pos h2]; exact hinv
    rw [if_neg h2]
    by_cases h3 : lowerStr (splitOnce command).1 = "/users"
    · rw [if_pos h3]; exact hinv
    rw [if_neg h3]
    by_cases h4 : lowerStr (splitOnce command).1 = "/join"
    · rw [if_pos h4]
      by_cases ha : (splitOnce command).2 = ""
      · rw [if_pos ha]; exact hinv
      rw [if_neg ha]
      cases hfind : s.rooms.find? (fun p =>
          p.1 == lowerStr (splitOnce command).2 ||
          lowerStr p.2.name == lowerStr (splitOnce command).2) with
      | none => exact hinv
      | some target =>
        dsimp only
        by_cases hs : (join_room s c target.1 ts).2.2.success = true
        · rw [if_pos hs]
          exact join_room_preserves_inv s c target.1 ts hinv
        · rw [if_neg hs]
          exact join_room_preserves_inv s c target.1 ts hinv
    rw [if_neg h4]
    by_cases h5 : lowerStr (splitOnce command).1 = "/nick"
    · rw [if_pos h5]
      by_cases ha : (splitOnce command).2 = ""
      · rw [if_pos ha]; exact hinv
      rw [if_neg ha]
      by_cases ht : nickTaken s c (splitOnce command).2 = true
      · rw [if_pos ht]; exact hinv
      rw [if_neg ht]
      obtain ⟨hrk, hruk, hreg, huc⟩ := hinv
      unfold invariantAmended
      dsimp only
      refine ⟨hrk, hruk, ?_, ?_⟩
      · intro q hq d hd
        by_cases hdc : d = c
        · subst hdc
          rw [lookup_setA_self]
          rfl
        · rw [lookup_setA_ne _ _ _ _ hdc]
          exact hreg q hq d hd
      · intro p hp
        rcases mem_setA hp with ⟨hpold, _⟩ | hpnew
        · exact huc p hpold
        · subst hpnew
          exact huc (c, u) (lookup_mem hu)
    rw [if_neg h5]
    by_cases h6 : lowerStr (splitOnce command).1 = "/stats"
    · rw [if_pos h6]; exact hinv
    rw [if_neg h6]
    exact hinv

/-- `send_message` preserves the amended invariant. -/
theorem send_message_preserves_inv (s : ChatState) (c content msgId ts : String)
    (hinv : invariantAmended s) : invariantAmended (send_message s c content msgId ts).1 := by
  unfold send_message
  cases hu : s.users.lookup c with
  | none => exact hinv
  | some u =>
    dsimp only
    split
    · exact hinv
    · split
      · exact handle_command_preserves_inv s c content ts hinv
      · obtain ⟨hrk, hruk, hreg, huc⟩ := hinv
        exact ⟨hrk, hruk, hreg, huc⟩

/-- `register_user` preserves the amended invariant (in particular also
when the automatic join to `general` fails on capacity: the new user then
lands in the escape clause of `userConsistent`). -/
theorem register_preserves_inv (s : ChatState) (c n a ts : String)
    (hinv : invariantAmended s) : invariantAmended (register_user s c n a ts).1 := by
  by_cases h0 : (s.users.lookup c).isSome = true
  · unfold register_user
    rw [if_pos h0]
    exact hinv
  · have h0n : s.users.lookup c = none := by
      cases h : s.users.lookup c
      · rfl
      · rw [h] at h0; simp at h0
    by_cases h1 : s.users.any (fun p => lowerStr p.2.username == lowerStr n) = true
    · unfold register_user
      rw [if_neg h0, if_pos h1]
      exact hinv
    · have h1f : s.users.any (fun p => lowerStr p.2.username == lowerStr n) = false :=
        Bool.eq_false_iff.mpr h1
      rw [register_user_success s c n a ts h0n h1f]
      exact join_room_preserves_inv _ c "general" ts (addUser_preserves_inv s c n a ts hinv h0n)

/-- One endpoint receive-loop iteration preserves the amended invariant. -/
theorem handle_frame_preserves_inv (s : ChatState) (c avatar msgId ts : String) (f : Frame)
    (hinv : invariantAmended s) :
    invariantAmended (handle_frame s c avatar msgId ts f).1 := by
  cases f with
  | malformed => exact hinv
  | parsed ty username content rid =>
    unfold handle_frame
    dsimp only
    split
    · split
      · exact hinv
      · exact register_preserves_inv _ _ _ _ _ hinv
    · split
      · split
        · exact hinv
        · split
          · exact send_message_preserves_inv _ _ _ _ _ hinv
          · split
            · exact send_message_preserves_inv _ _ _ _ _ hinv
            · exact send_message_preserves_inv _ _ _ _ _ hinv
      · split
        · split
          · exact hinv
          · split
            · exact hinv
            · exact join_room_preserves_inv _ _ _ _ hinv
        · exact hinv

/-- The whole endpoint session preserves the amended invariant. -/
theorem websocket_loop_preserves_inv (c avatar msgId ts : String) :
    ∀ (frames : List Frame) (s : ChatState), invariantAmended s →
      invariantAmended (websocket_loop s c avatar msgId ts frames).1 := by
  intro frames
  induction frames with
  | nil =>
    intro s hinv
    exact disconnect_preserves_inv s c ts hinv
  | cons f rest ih =>
    intro s hinv
    unfold websocket_loop
    dsimp only
    split
    · exact disconnect_preserves_inv _ c ts (handle_frame_preserves_inv s c avatar msgId ts f hinv)
    · exact ih _ (handle_frame_preserves_inv s c avatar msgId ts f hinv)

/-- Claim C1 as amended: the pointer-consistency invariant holds in every
reachable state, except that a user whose automatic join to `general`
failed at registration (because `general` was at capacity) has its pointer
set to `general` while belonging to no membership set. Formally: the
amended invariant holds initially, implies that every registered user
either is a member of exactly the room its pointer names or is in no room
with its pointer reading `general`, and is preserved by Register, JoinRoom,
SendMessage, every command, Teardown, and every endpoint frame or session. -/
theorem c1_amended_invariant :
    invariantAmended initialState
    ∧ (∀ s, invariantAmended s → ∀ p ∈ s.users,
        ((s.roomUsers.lookup p.2.current_room).isSome = true
          ∧ p.1 ∈ (s.roomUsers.lookup p.2.current_room).getD [])
        ∨ ((∀ q ∈ s.roomUsers, p.1 ∉ q.2) ∧ p.2.current_room = "general"))
    ∧ (∀ s, invariantAmended s →
        (∀ c n a ts, invariantAmended (register_user s c n a ts).1)
        ∧ (∀ c r ts, invariantAmended (join_room s c r ts).1)
        ∧ (∀ c content msgId ts, invariantAmended (send_message s c content msgId ts).1)
        ∧ (∀ c command ts, invariantAmended (handle_command s c command ts).1)
        ∧ (∀ c ts, invariantAmended (disconnect s c ts).1)
        ∧ (∀ c avatar msgId ts f, invariantAmended (handle_frame s c avatar msgId ts f).1)
        ∧ (∀ c avatar msgId ts frames,
            invariantAmended (websocket_loop s c avatar msgId ts frames).1)) := by
  refine ⟨by decide, ?_, ?_⟩
  · intro s hinv p hp
    rcases hinv.2.2.2 p hp with ⟨hsome, hiff⟩ | ⟨hnone, hgen⟩
    · left
      obtain ⟨ms, hms⟩ := Option.isSome_iff_exists.mp hsome
      refine ⟨hsome, ?_⟩
      rw [hms, Option.getD_some]
      exact contains_iff_mem.mp ((hiff (p.2.current_room, ms) (lookup_mem hms)).mpr rfl)
    · right
      refine ⟨?_, hgen⟩
      intro q hq hmem
      have h2 := contains_iff_mem.mpr hmem
      rw [hnone q hq] at h2
      exact Bool.false_ne_true h2
  · intro s hinv
    exact ⟨fun c n a ts => register_preserves_inv s c n a ts hinv,
           fun c r ts => join_room_preserves_inv s c r ts hinv,
           fun c content msgId ts => send_message_preserves_inv s c content msgId ts hinv,
           fun c command ts => handle_command_preserves_inv s c command ts hinv,
           fun c ts => disconnect_preserves_inv s c ts hinv,
           fun c avatar msgId ts f => handle_frame_preserves_inv s c avatar msgId ts f hinv,
           fun c avatar msgId ts frames => websocket_loop_preserves_inv c avatar msgId ts frames s hinv⟩

theorem c1_amended_invariant_witness :
    invariantAmended (register_user initialState "w1" "wanda" "#W1" "tw").1 :=
  (c1_amended_invariant.2.2 initialState (by decide)).1 "w1" "wanda" "#W1" "tw"

end PampaChat


